import Mathlib

/-!
A shallow embedding of the record-management pallets of the repository
(c2c-order, order, c2c-token, product, institution) and proofs about them.

Modelling conventions:
* byte strings (`Vec<u8>` / `BoundedVec<u8, _>`) are `List Nat`; the bounded
  conversion `BoundedVec::try_from` is a length check against the configured
  maximum, failing with `StringConversionError` exactly as in the source;
* account ids and block numbers are `Nat`; `u32`/`u64`/`u128` fields are `Nat`
  (saturating arithmetic is modelled explicitly where the source uses it);
* a `StorageMap` is a total function from key to value (`Option` value for
  `OptionQuery` maps, a list for `ValueQuery` index maps whose default is the
  empty list); a `StorageDoubleMap` is keyed by a pair;
* each dispatchable is a function from its arguments and the pre-state to
  `Option Err × State`: `(none, s')` is `Ok(())` with post-state `s'`, and
  `(some e, s')` is `Err(e)` with `s'` the storage as the sequence of raw
  storage writes performed before the failing check leaves it.  `try_mutate`
  on a map writes its staged value back only on `Ok`, while writes performed
  to *other* maps inside the closure take effect immediately, exactly
  mirroring the source's storage semantics;
* `BoundedVec::try_push` appends at the end and fails when the list is at its
  capacity.
-/

/-- Pointwise update of a total map, the shallow counterpart of a storage write. -/
def fupd {α : Type} {β : Type} [DecidableEq α] (f : α → β) (a : α) (b : β) : α → β :=
  fun x => if x = a then b else f x

/-- `BoundedVec::try_push`: append if below capacity, otherwise fail. -/
def tryPush {α : Type} (cap : Nat) (l : List α) (x : α) : Option (List α) :=
  if l.length < cap then some (l ++ [x]) else none

/-- `orders.retain(|code| code != &k)`: keep the elements different from `k`. -/
def removeCode {α : Type} [DecidableEq α] (l : List α) (k : α) : List α :=
  l.filter (fun c => decide (c ≠ k))

def u32Max : Nat := 4294967295

/-- `u32::saturating_add` on the `Nat` carrier. -/
def satAdd32 (a b : Nat) : Nat := min (a + b) u32Max

/-- `u32::saturating_mul` on the `Nat` carrier. -/
def satMul32 (a b : Nat) : Nat := min (a * b) u32Max

namespace C2C

/-- `OrderStatus` of the c2c-order pallet. -/
inductive OrderStatus : Type
  | Pending
  | Paid
  | Delivered
  | Notarizing
  | Cancelled
  | Completed
  deriving DecidableEq, Repr

/-- `OrderDirection` of the c2c-order pallet. -/
inductive OrderDirection : Type
  | UserSell
  | UserBuy
  deriving DecidableEq, Repr

/-- The `Order` record of the c2c-order pallet. -/
structure Order : Type where
  order_code : List Nat
  member_code : List Nat
  institution_code : List Nat
  status : OrderStatus
  direction : OrderDirection
  created_time : Nat
  updated_time : Nat
  transaction_amount : Nat
  total_amount : Nat
  creator : Nat
  deriving DecidableEq, Repr

/-- Length bounds supplied by the pallet `Config`. -/
structure Config : Type where
  maxOrderCodeLength : Nat
  maxMemberCodeLength : Nat
  maxInstitutionIdLength : Nat

/-- The pallet errors. -/
inductive Err : Type
  | OrderCodeAlreadyExists
  | OrderNotFound
  | NotAuthorized
  | StringConversionError
  | InvalidStatus
  | InvalidStatusTransition
  | UserOrderListFull
  | InstitutionOrderListFull
  | StatusOrderListFull
  | InvalidDirection
  | InvalidAmount
  deriving DecidableEq, Repr

/-- The pallet storage: `Orders`, `UserOrders`, `InstitutionOrders`, `OrdersByStatus`. -/
structure State : Type where
  orders : List Nat → Option Order
  userOrders : List Nat → List (List Nat)
  institutionOrders : List Nat → List (List Nat)
  ordersByStatus : OrderStatus → List (List Nat)

/-- Empty storage. -/
def emptyState : State :=
  { orders := fun _ => none
    userOrders := fun _ => []
    institutionOrders := fun _ => []
    ordersByStatus := fun _ => [] }

/-- Decoding of the wire `u8` into `OrderStatus` (the `match status` block). -/
def decodeStatus (code : Nat) : Option OrderStatus :=
  match code with
  | 0 => some .Pending
  | 1 => some .Paid
  | 2 => some .Delivered
  | 3 => some .Notarizing
  | 4 => some .Cancelled
  | 5 => some .Completed
  | _ => none

/-- Decoding of the wire `u8` into `OrderDirection`. -/
def decodeDirection (code : Nat) : Option OrderDirection :=
  match code with
  | 0 => some .UserSell
  | 1 => some .UserBuy
  | _ => none

/-- `validate_status_transition` of the c2c-order pallet. -/
def validate_status_transition (from_ to_ : OrderStatus) : Bool :=
  match from_, to_ with
  | .Pending, .Paid | .Pending, .Cancelled | .Pending, .Notarizing => true
  | .Paid, .Delivered | .Paid, .Cancelled | .Paid, .Notarizing => true
  | .Delivered, .Completed | .Delivered, .Notarizing => true
  | .Notarizing, .Completed | .Notarizing, .Cancelled => true
  | _, _ => false

/-- Shorthand for the `OrdersByStatus::mutate` removal (`retain(code != k)`). -/
def rmStatusBucket (s : State) (st : OrderStatus) (k : List Nat) : State :=
  { s with ordersByStatus := fupd s.ordersByStatus st (removeCode (s.ordersByStatus st) k) }

/-- `create_order` of the c2c-order pallet.  The primary insert happens before
the three fallible index appends, exactly as in the source; an index-capacity
failure therefore returns an error while keeping the writes already made. -/
def create_order (cfg : Config) (who : Nat)
    (order_code member_code institution_code : List Nat)
    (direction transaction_amount total_amount now : Nat)
    (s : State) : Option Err × State :=
  if cfg.maxOrderCodeLength < order_code.length then (some .StringConversionError, s) else
  if (s.orders order_code).isSome then (some .OrderCodeAlreadyExists, s) else
  if transaction_amount = 0 then (some .InvalidAmount, s) else
  if total_amount < transaction_amount then (some .InvalidAmount, s) else
  match decodeDirection direction with
  | none => (some .InvalidDirection, s)
  | some dir =>
    if cfg.maxMemberCodeLength < member_code.length then (some .StringConversionError, s) else
    if cfg.maxInstitutionIdLength < institution_code.length then (some .StringConversionError, s) else
    let order : Order :=
      { order_code := order_code
        member_code := member_code
        institution_code := institution_code
        status := .Pending
        direction := dir
        created_time := now
        updated_time := now
        transaction_amount := transaction_amount
        total_amount := total_amount
        creator := who }
    let s1 : State := { s with orders := fupd s.orders order_code (some order) }
    match tryPush 1000 (s1.userOrders member_code) order_code with
    | none => (some .UserOrderListFull, s1)
    | some ul =>
      let s2 : State := { s1 with userOrders := fupd s1.userOrders member_code ul }
      match tryPush 10000 (s2.institutionOrders institution_code) order_code with
      | none => (some .InstitutionOrderListFull, s2)
      | some il =>
        let s3 : State := { s2 with institutionOrders := fupd s2.institutionOrders institution_code il }
        match tryPush 10000 (s3.ordersByStatus .Pending) order_code with
        | none => (some .StatusOrderListFull, s3)
        | some pl => (none, { s3 with ordersByStatus := fupd s3.ordersByStatus .Pending pl })

/-- `update_order_status` of the c2c-order pallet.  The record mutation is
staged inside `Orders::try_mutate` and only written back on `Ok`, while the
removal from the old by-status bucket is an immediate `mutate` that persists
even when the subsequent append to the new bucket fails. -/
def update_order_status (cfg : Config) (who : Nat) (order_code : List Nat)
    (status now : Nat) (s : State) : Option Err × State :=
  if cfg.maxOrderCodeLength < order_code.length then (some .StringConversionError, s) else
  match s.orders order_code with
  | none => (some .OrderNotFound, s)
  | some order =>
    if order.creator ≠ who then (some .NotAuthorized, s) else
    let old_status := order.status
    match decodeStatus status with
    | none => (some .InvalidStatus, s)
    | some new_status =>
      if ¬ validate_status_transition order.status new_status then
        (some .InvalidStatusTransition, s)
      else
        let order' : Order := { order with status := new_status, updated_time := now }
        let s1 : State := rmStatusBucket s old_status order_code
        match tryPush 10000 (s1.ordersByStatus new_status) order_code with
        | none => (some .StatusOrderListFull, s1)
        | some nl =>
          (none, { s1 with
            ordersByStatus := fupd s1.ordersByStatus new_status nl,
            orders := fupd s1.orders order_code (some order') })

/-- `cancel_order` of the c2c-order pallet. -/
def cancel_order (cfg : Config) (who : Nat) (order_code : List Nat)
    (now : Nat) (s : State) : Option Err × State :=
  if cfg.maxOrderCodeLength < order_code.length then (some .StringConversionError, s) else
  match s.orders order_code with
  | none => (some .OrderNotFound, s)
  | some order =>
    if order.creator ≠ who then (some .NotAuthorized, s) else
    if ¬ (order.status = .Pending ∨ order.status = .Paid) then
      (some .InvalidStatusTransition, s)
    else
      let old_status := order.status
      let order' : Order := { order with status := .Cancelled, updated_time := now }
      let s1 : State := rmStatusBucket s old_status order_code
      match tryPush 10000 (s1.ordersByStatus .Cancelled) order_code with
      | none => (some .StatusOrderListFull, s1)
      | some nl =>
        (none, { s1 with
          ordersByStatus := fupd s1.ordersByStatus .Cancelled nl,
          orders := fupd s1.orders order_code (some order') })

/-- `complete_order` of the c2c-order pallet. -/
def complete_order (cfg : Config) (who : Nat) (order_code : List Nat)
    (now : Nat) (s : State) : Option Err × State :=
  if cfg.maxOrderCodeLength < order_code.length then (some .StringConversionError, s) else
  match s.orders order_code with
  | none => (some .OrderNotFound, s)
  | some order =>
    if order.creator ≠ who then (some .NotAuthorized, s) else
    if ¬ (order.status = .Delivered ∨ order.status = .Notarizing) then
      (some .InvalidStatusTransition, s)
    else
      let old_status := order.status
      let order' : Order := { order with status := .Completed, updated_time := now }
      let s1 : State := rmStatusBucket s old_status order_code
      match tryPush 10000 (s1.ordersByStatus .Completed) order_code with
      | none => (some .StatusOrderListFull, s1)
      | some nl =>
        (none, { s1 with
          ordersByStatus := fupd s1.ordersByStatus .Completed nl,
          orders := fupd s1.orders order_code (some order') })

/-- `delete_order` of the c2c-order pallet. -/
def delete_order (cfg : Config) (who : Nat) (order_code : List Nat)
    (s : State) : Option Err × State :=
  if cfg.maxOrderCodeLength < order_code.length then (some .StringConversionError, s) else
  match s.orders order_code with
  | none => (some .OrderNotFound, s)
  | some order =>
    if order.creator ≠ who then (some .NotAuthorized, s) else
    let s1 : State := { s with userOrders := fupd s.userOrders order.member_code (removeCode (s.userOrders order.member_code) order_code) }
    let s2 : State := { s1 with institutionOrders := fupd s1.institutionOrders order.institution_code (removeCode (s1.institutionOrders order.institution_code) order_code) }
    let s3 : State := rmStatusBucket s2 order.status order_code
    (none, { s3 with orders := fupd s3.orders order_code none })

/-- The command surface of the c2c-order pallet. -/
inductive Cmd : Type
  | create (who : Nat) (oc mc ic : List Nat) (dir ta tot now : Nat)
  | updateStatus (who : Nat) (oc : List Nat) (st now : Nat)
  | cancel (who : Nat) (oc : List Nat) (now : Nat)
  | delete (who : Nat) (oc : List Nat)
  | complete (who : Nat) (oc : List Nat) (now : Nat)

/-- Dispatch of one command. -/
def step (cfg : Config) : Cmd → State → Option Err × State
  | .create who oc mc ic dir ta tot now, s => create_order cfg who oc mc ic dir ta tot now s
  | .updateStatus who oc st now, s => update_order_status cfg who oc st now s
  | .cancel who oc now, s => cancel_order cfg who oc now s
  | .delete who oc, s => delete_order cfg who oc s
  | .complete who oc now, s => complete_order cfg who oc now s

/-- States reachable from empty storage by committed (successful) commands:
a failed command is rolled back by resubmission semantics, so only the states
left by `Ok` dispatches are in the reachable set. -/
inductive Reachable (cfg : Config) : State → Prop
  | empty : Reachable cfg emptyState
  | step {s s' : State} {c : Cmd} :
      Reachable cfg s → step cfg c s = (none, s') → Reachable cfg s'

/-- I1/I2/I3 for the by-status index of the c2c-order pallet: a key is in the
bucket of status `st` exactly when the stored order has status `st`, and no
bucket holds duplicates. -/
def StatusInv (s : State) : Prop :=
  (∀ k st, k ∈ s.ordersByStatus st ↔ ∃ o, s.orders k = some o ∧ o.status = st) ∧
  (∀ st, (s.ordersByStatus st).Nodup)

/-- The record built by a successful `create_order`. -/
def builtOrder (who : Nat) (oc mc ic : List Nat) (d : OrderDirection)
    (ta tot now : Nat) : Order :=
  { order_code := oc
    member_code := mc
    institution_code := ic
    status := .Pending
    direction := d
    created_time := now
    updated_time := now
    transaction_amount := ta
    total_amount := tot
    creator := who }

/-- One `create_order` request (for reasoning about sequences of creates). -/
structure CreateReq : Type where
  who : Nat
  oc : List Nat
  mc : List Nat
  ic : List Nat
  dir : Nat
  ta : Nat
  tot : Nat
  now : Nat

/-- Dispatch one create request. -/
def runCreate (cfg : Config) (r : CreateReq) (s : State) : Option Err × State :=
  create_order cfg r.who r.oc r.mc r.ic r.dir r.ta r.tot r.now s

/-- Run a sequence of create requests, returning the final state only when
every request committed. -/
def runCreates (cfg : Config) : List CreateReq → State → Option State
  | [], s => some s
  | r :: rest, s =>
    match runCreate cfg r s with
    | (none, s1) => runCreates cfg rest s1
    | (some _, _) => none

end C2C

namespace Ord

/-- `OrderStatus` of the plain order pallet (has `Refunded`, no `Notarizing`). -/
inductive OrderStatus : Type
  | Pending
  | Paid
  | Delivered
  | Cancelled
  | Completed
  | Refunded
  deriving DecidableEq, Repr

/-- `ContactInformation` of the plain order pallet. -/
structure ContactInformation : Type where
  phone : Option (List Nat)
  email : Option (List Nat)
  address : Option (List Nat)
  deriving DecidableEq, Repr

/-- `OrderItem` of the plain order pallet. -/
structure OrderItem : Type where
  product_code : List Nat
  quantity : Nat
  price_per_unit : Nat
  weight : Nat
  deriving DecidableEq, Repr

/-- The `Order` record of the plain order pallet. -/
structure Order : Type where
  order_code : List Nat
  member_code : List Nat
  institution_code : List Nat
  status : OrderStatus
  created_time : Nat
  updated_time : Nat
  total_amount : Nat
  total_weight : Nat
  freight : Nat
  contact_information : ContactInformation
  items : List OrderItem
  express_company : List Nat
  express_number : List Nat
  creator : Nat
  deriving DecidableEq, Repr

/-- Length and size bounds supplied by the pallet `Config`. -/
structure Config : Type where
  maxOrderCodeLength : Nat
  maxMemberCodeLength : Nat
  maxInstitutionIdLength : Nat
  maxOrderItems : Nat
  maxExpressCompanyLength : Nat
  maxExpressNumberLength : Nat

/-- The pallet errors. -/
inductive Err : Type
  | OrderCodeAlreadyExists
  | OrderNotFound
  | NotAuthorized
  | StringConversionError
  | InvalidStatus
  | EmptyOrderItems
  | TooManyOrderItems
  | InvalidStatusTransition
  | UserOrderListFull
  | InstitutionOrderListFull
  deriving DecidableEq, Repr

/-- The pallet storage: `Orders`, `UserOrders`, `InstitutionOrders`. -/
structure State : Type where
  orders : List Nat → Option Order
  userOrders : List Nat → List (List Nat)
  institutionOrders : List Nat → List (List Nat)

/-- Empty storage. -/
def emptyState : State :=
  { orders := fun _ => none
    userOrders := fun _ => []
    institutionOrders := fun _ => [] }

/-- Decoding of the wire `u8` into the plain `OrderStatus`. -/
def decodeStatus (code : Nat) : Option OrderStatus :=
  match code with
  | 0 => some .Pending
  | 1 => some .Paid
  | 2 => some .Delivered
  | 3 => some .Cancelled
  | 4 => some .Completed
  | 5 => some .Refunded
  | _ => none

/-- `validate_status_transition` of the plain order pallet. -/
def validate_status_transition (from_ to_ : OrderStatus) : Bool :=
  match from_, to_ with
  | .Pending, .Paid | .Pending, .Cancelled => true
  | .Paid, .Delivered | .Paid, .Refunded | .Paid, .Cancelled => true
  | .Delivered, .Completed => true
  | .Completed, .Refunded => true
  | _, _ => false

/-- Bounded conversion of an optional byte string (the contact fields). -/
def convOpt (max : Nat) : Option (List Nat) → Option (Option (List Nat))
  | none => some none
  | some v => if max < v.length then none else some (some v)

/-- The item-conversion loop of `create_order`: converts each
`(product_code, quantity, price_per_unit, weight)` tuple and accumulates the
saturating totals, in source order. -/
def convItems : List (List Nat × Nat × Nat × Nat) → Nat → Nat →
    Option (List OrderItem × Nat × Nat)
  | [], ta, tw => some ([], ta, tw)
  | (pc, q, ppu, w) :: rest, ta, tw =>
    if 64 < pc.length then none
    else
      match convItems rest (satAdd32 ta (satMul32 ppu q)) (satAdd32 tw (satMul32 w q)) with
      | none => none
      | some (l, ta2, tw2) => some ({ product_code := pc, quantity := q, price_per_unit := ppu, weight := w } :: l, ta2, tw2)

/-- `create_order` of the plain order pallet.  As in the c2c variant the
primary insert precedes the two fallible index appends. -/
def create_order (cfg : Config) (who : Nat)
    (order_code member_code institution_code : List Nat) (freight : Nat)
    (phone email address : Option (List Nat))
    (items : List (List Nat × Nat × Nat × Nat)) (now : Nat)
    (s : State) : Option Err × State :=
  if cfg.maxOrderCodeLength < order_code.length then (some .StringConversionError, s) else
  if (s.orders order_code).isSome then (some .OrderCodeAlreadyExists, s) else
  if items.isEmpty then (some .EmptyOrderItems, s) else
  if cfg.maxMemberCodeLength < member_code.length then (some .StringConversionError, s) else
  if cfg.maxInstitutionIdLength < institution_code.length then (some .StringConversionError, s) else
  match convOpt 32 phone with
  | none => (some .StringConversionError, s)
  | some ph =>
    match convOpt 128 email with
    | none => (some .StringConversionError, s)
    | some em =>
      match convOpt 512 address with
      | none => (some .StringConversionError, s)
      | some ad =>
        match convItems items 0 0 with
        | none => (some .StringConversionError, s)
        | some (oitems, ta, tw) =>
          if cfg.maxOrderItems < oitems.length then (some .TooManyOrderItems, s) else
          let order : Order :=
            { order_code := order_code
              member_code := member_code
              institution_code := institution_code
              status := .Pending
              created_time := now
              updated_time := now
              total_amount := satAdd32 ta freight
              total_weight := tw
              freight := freight
              contact_information := { phone := ph, email := em, address := ad }
              items := oitems
              express_company := []
              express_number := []
              creator := who }
          let s1 : State := { s with orders := fupd s.orders order_code (some order) }
          match tryPush 1000 (s1.userOrders member_code) order_code with
          | none => (some .UserOrderListFull, s1)
          | some ul =>
            let s2 : State := { s1 with userOrders := fupd s1.userOrders member_code ul }
            match tryPush 10000 (s2.institutionOrders institution_code) order_code with
            | none => (some .InstitutionOrderListFull, s2)
            | some il =>
              (none, { s2 with institutionOrders := fupd s2.institutionOrders institution_code il })

/-- The record that a successful plain `create_order` stores, assembled from
the converted contact fields, the converted items and the saturating totals. -/
def builtOrder (who : Nat) (oc mc ic : List Nat) (freight : Nat)
    (ph em ad : Option (List Nat)) (oitems : List OrderItem)
    (ta tw now : Nat) : Order :=
  { order_code := oc
    member_code := mc
    institution_code := ic
    status := .Pending
    created_time := now
    updated_time := now
    total_amount := satAdd32 ta freight
    total_weight := tw
    freight := freight
    contact_information := { phone := ph, email := em, address := ad }
    items := oitems
    express_company := []
    express_number := []
    creator := who }

/-- One plain `create_order` request (for reasoning about sequences of
creates). -/
structure CreateReq : Type where
  who : Nat
  oc : List Nat
  mc : List Nat
  ic : List Nat
  freight : Nat
  phone : Option (List Nat)
  email : Option (List Nat)
  address : Option (List Nat)
  items : List (List Nat × Nat × Nat × Nat)
  now : Nat

/-- Dispatch one plain create request. -/
def runCreate (cfg : Config) (r : CreateReq) (s : State) : Option Err × State :=
  create_order cfg r.who r.oc r.mc r.ic r.freight r.phone r.email r.address r.items r.now s

/-- Run a sequence of plain create requests, returning the final state only
when every request committed. -/
def runCreates (cfg : Config) : List CreateReq → State → Option State
  | [], s => some s
  | r :: rest, s =>
    match runCreate cfg r s with
    | (none, s1) => runCreates cfg rest s1
    | (some _, _) => none

/-- `update_order_status` of the plain order pallet (no by-status index). -/
def update_order_status (cfg : Config) (who : Nat) (order_code : List Nat)
    (status now : Nat) (s : State) : Option Err × State :=
  if cfg.maxOrderCodeLength < order_code.length then (some .StringConversionError, s) else
  match s.orders order_code with
  | none => (some .OrderNotFound, s)
  | some order =>
    if order.creator ≠ who then (some .NotAuthorized, s) else
    match decodeStatus status with
    | none => (some .InvalidStatus, s)
    | some new_status =>
      if ¬ validate_status_transition order.status new_status then
        (some .InvalidStatusTransition, s)
      else
        (none, { s with orders := fupd s.orders order_code (some { order with status := new_status, updated_time := now }) })

/-- `update_express_info` of the plain order pallet. -/
def update_express_info (cfg : Config) (who : Nat) (order_code : List Nat)
    (express_company express_number : List Nat) (now : Nat)
    (s : State) : Option Err × State :=
  if cfg.maxOrderCodeLength < order_code.length then (some .StringConversionError, s) else
  if cfg.maxExpressCompanyLength < express_company.length then (some .StringConversionError, s) else
  if cfg.maxExpressNumberLength < express_number.length then (some .StringConversionError, s) else
  match s.orders order_code with
  | none => (some .OrderNotFound, s)
  | some order =>
    if order.creator ≠ who then (some .NotAuthorized, s) else
    (none, { s with orders := fupd s.orders order_code (some { order with express_company := express_company, express_number := express_number, updated_time := now }) })

/-- `cancel_order` of the plain order pallet. -/
def cancel_order (cfg : Config) (who : Nat) (order_code : List Nat)
    (now : Nat) (s : State) : Option Err × State :=
  if cfg.maxOrderCodeLength < order_code.length then (some .StringConversionError, s) else
  match s.orders order_code with
  | none => (some .OrderNotFound, s)
  | some order =>
    if order.creator ≠ who then (some .NotAuthorized, s) else
    if ¬ (order.status = .Pending ∨ order.status = .Paid) then
      (some .InvalidStatusTransition, s)
    else
      (none, { s with orders := fupd s.orders order_code (some { order with status := .Cancelled, updated_time := now }) })

/-- `delete_order` of the plain order pallet. -/
def delete_order (cfg : Config) (who : Nat) (order_code : List Nat)
    (s : State) : Option Err × State :=
  if cfg.maxOrderCodeLength < order_code.length then (some .StringConversionError, s) else
  match s.orders order_code with
  | none => (some .OrderNotFound, s)
  | some order =>
    if order.creator ≠ who then (some .NotAuthorized, s) else
    let s1 : State := { s with userOrders := fupd s.userOrders order.member_code (removeCode (s.userOrders order.member_code) order_code) }
    let s2 : State := { s1 with institutionOrders := fupd s1.institutionOrders order.institution_code (removeCode (s1.institutionOrders order.institution_code) order_code) }
    (none, { s2 with orders := fupd s2.orders order_code none })

end Ord

namespace Token

/-- `TokenStatus` of the c2c-token pallet. -/
inductive TokenStatus : Type
  | Available
  | Unavailable
  deriving DecidableEq, Repr

/-- `TokenTradableDirection` of the c2c-token pallet. -/
inductive TokenTradableDirection : Type
  | Sell
  | Buy
  deriving DecidableEq, Repr

/-- The `TokenInfo` record of the c2c-token pallet. -/
structure TokenInfo : Type where
  institution_code : List Nat
  token_name : List Nat
  category : List Nat
  price : Nat
  token_trade_direction : TokenTradableDirection
  stock_quantity : Nat
  sales_quantity : Nat
  status : TokenStatus
  creator : Nat
  deriving DecidableEq, Repr

/-- Length bounds supplied by the pallet `Config`. -/
structure Config : Type where
  maxTokenCodeLength : Nat
  maxInstitutionCodeLength : Nat
  maxNameLength : Nat
  maxCategoryLength : Nat

/-- The pallet errors. -/
inductive Err : Type
  | TokenAlreadyExists
  | TokenNotFound
  | NotAuthorized
  | StringConversionError
  | InstitutionTokenListFull
  | UserTokenListFull
  | InsufficientStock
  | InvalidStatus
  | InvalidPrice
  | InvalidTradeDirection
  deriving DecidableEq, Repr

/-- The pallet storage: `Tokens` (a double map keyed by token code and
institution code), `InstitutionTokens` and `UserTokens`. -/
structure State : Type where
  tokens : List Nat × List Nat → Option TokenInfo
  institutionTokens : List Nat → List (List Nat)
  userTokens : Nat → List (List Nat × List Nat)

/-- Empty storage. -/
def emptyState : State :=
  { tokens := fun _ => none
    institutionTokens := fun _ => []
    userTokens := fun _ => [] }

/-- Decoding of the wire `u8` into `TokenTradableDirection`. -/
def decodeDirection (code : Nat) : Option TokenTradableDirection :=
  match code with
  | 0 => some .Sell
  | 1 => some .Buy
  | _ => none

/-- Decoding of the wire `u8` into `TokenStatus`. -/
def decodeStatus (code : Nat) : Option TokenStatus :=
  match code with
  | 0 => some .Available
  | 1 => some .Unavailable
  | _ => none

/-- `create_token` of the c2c-token pallet. -/
def create_token (cfg : Config) (who : Nat)
    (token_code institution_code token_name category : List Nat)
    (price token_trade_direction stock_quantity : Nat)
    (s : State) : Option Err × State :=
  if cfg.maxTokenCodeLength < token_code.length then (some .StringConversionError, s) else
  if cfg.maxInstitutionCodeLength < institution_code.length then (some .StringConversionError, s) else
  if (s.tokens (token_code, institution_code)).isSome then (some .TokenAlreadyExists, s) else
  if price = 0 then (some .InvalidPrice, s) else
  match decodeDirection token_trade_direction with
  | none => (some .InvalidTradeDirection, s)
  | some dir =>
    if cfg.maxNameLength < token_name.length then (some .StringConversionError, s) else
    if cfg.maxCategoryLength < category.length then (some .StringConversionError, s) else
    let info : TokenInfo :=
      { institution_code := institution_code
        token_name := token_name
        category := category
        price := price
        token_trade_direction := dir
        stock_quantity := stock_quantity
        sales_quantity := 0
        status := .Available
        creator := who }
    let s1 : State := { s with tokens := fupd s.tokens (token_code, institution_code) (some info) }
    match tryPush 10000 (s1.institutionTokens institution_code) token_code with
    | none => (some .InstitutionTokenListFull, s1)
    | some il =>
      let s2 : State := { s1 with institutionTokens := fupd s1.institutionTokens institution_code il }
      match tryPush 1000 (s2.userTokens who) (token_code, institution_code) with
      | none => (some .UserTokenListFull, s2)
      | some ul => (none, { s2 with userTokens := fupd s2.userTokens who ul })

/-- Stage 4 of the `update_token_info` closure: the optional trade direction. -/
def tokenUpd4 (t : TokenInfo) (token_trade_direction : Option Nat) : Except Err TokenInfo :=
  match token_trade_direction with
  | none => .ok t
  | some d =>
    match decodeDirection d with
    | none => .error .InvalidTradeDirection
    | some dd => .ok { t with token_trade_direction := dd }

/-- Stage 3 of the `update_token_info` closure: the optional price. -/
def tokenUpd3 (t : TokenInfo) (price : Option Nat)
    (token_trade_direction : Option Nat) : Except Err TokenInfo :=
  match price with
  | none => tokenUpd4 t token_trade_direction
  | some p =>
    if p = 0 then .error .InvalidPrice
    else tokenUpd4 { t with price := p } token_trade_direction

/-- Stage 2 of the `update_token_info` closure: the optional category. -/
def tokenUpd2 (cfg : Config) (t : TokenInfo) (category : Option (List Nat))
    (price : Option Nat) (token_trade_direction : Option Nat) : Except Err TokenInfo :=
  match category with
  | none => tokenUpd3 t price token_trade_direction
  | some c =>
    if cfg.maxCategoryLength < c.length then .error .StringConversionError
    else tokenUpd3 { t with category := c } price token_trade_direction

/-- The body of the `update_token_info` closure: apply each supplied optional
field in source order, failing on the first invalid one. -/
def applyTokenUpdates (cfg : Config) (token : TokenInfo)
    (token_name category : Option (List Nat)) (price : Option Nat)
    (token_trade_direction : Option Nat) : Except Err TokenInfo :=
  match token_name with
  | none => tokenUpd2 cfg token category price token_trade_direction
  | some nm =>
    if cfg.maxNameLength < nm.length then .error .StringConversionError
    else tokenUpd2 cfg { token with token_name := nm } category price token_trade_direction

/-- `update_token_info` of the c2c-token pallet: optional-field update inside
`Tokens::try_mutate`; on any closure error nothing is persisted. -/
def update_token_info (cfg : Config) (who : Nat)
    (token_code institution_code : List Nat)
    (token_name category : Option (List Nat)) (price : Option Nat)
    (token_trade_direction : Option Nat)
    (s : State) : Option Err × State :=
  if cfg.maxTokenCodeLength < token_code.length then (some .StringConversionError, s) else
  if cfg.maxInstitutionCodeLength < institution_code.length then (some .StringConversionError, s) else
  match s.tokens (token_code, institution_code) with
  | none => (some .TokenNotFound, s)
  | some token =>
    if token.creator ≠ who then (some .NotAuthorized, s) else
    match applyTokenUpdates cfg token token_name category price token_trade_direction with
    | .error e => (some e, s)
    | .ok t2 => (none, { s with tokens := fupd s.tokens (token_code, institution_code) (some t2) })

/-- `update_token_status` of the c2c-token pallet. -/
def update_token_status (cfg : Config) (who : Nat)
    (token_code institution_code : List Nat) (status : Nat)
    (s : State) : Option Err × State :=
  if cfg.maxTokenCodeLength < token_code.length then (some .StringConversionError, s) else
  if cfg.maxInstitutionCodeLength < institution_code.length then (some .StringConversionError, s) else
  match s.tokens (token_code, institution_code) with
  | none => (some .TokenNotFound, s)
  | some token =>
    if token.creator ≠ who then (some .NotAuthorized, s) else
    match decodeStatus status with
    | none => (some .InvalidStatus, s)
    | some new_status =>
      (none, { s with tokens := fupd s.tokens (token_code, institution_code) (some { token with status := new_status }) })

/-- `update_token_price` of the c2c-token pallet (price validated before the
key conversions, as in the source). -/
def update_token_price (cfg : Config) (who : Nat)
    (token_code institution_code : List Nat) (new_price : Nat)
    (s : State) : Option Err × State :=
  if new_price = 0 then (some .InvalidPrice, s) else
  if cfg.maxTokenCodeLength < token_code.length then (some .StringConversionError, s) else
  if cfg.maxInstitutionCodeLength < institution_code.length then (some .StringConversionError, s) else
  match s.tokens (token_code, institution_code) with
  | none => (some .TokenNotFound, s)
  | some token =>
    if token.creator ≠ who then (some .NotAuthorized, s) else
    (none, { s with tokens := fupd s.tokens (token_code, institution_code) (some { token with price := new_price }) })

/-- `update_stock` of the c2c-token pallet. -/
def update_stock (cfg : Config) (who : Nat)
    (token_code institution_code : List Nat) (new_stock : Nat)
    (s : State) : Option Err × State :=
  if cfg.maxTokenCodeLength < token_code.length then (some .StringConversionError, s) else
  if cfg.maxInstitutionCodeLength < institution_code.length then (some .StringConversionError, s) else
  match s.tokens (token_code, institution_code) with
  | none => (some .TokenNotFound, s)
  | some token =>
    if token.creator ≠ who then (some .NotAuthorized, s) else
    (none, { s with tokens := fupd s.tokens (token_code, institution_code) (some { token with stock_quantity := new_stock }) })

/-- `delete_token` of the c2c-token pallet.  Note that the `UserTokens`
removal touches only the caller's own bucket. -/
def delete_token (cfg : Config) (who : Nat)
    (token_code institution_code : List Nat)
    (s : State) : Option Err × State :=
  if cfg.maxTokenCodeLength < token_code.length then (some .StringConversionError, s) else
  if cfg.maxInstitutionCodeLength < institution_code.length then (some .StringConversionError, s) else
  match s.tokens (token_code, institution_code) with
  | none => (some .TokenNotFound, s)
  | some token =>
    if token.creator ≠ who then (some .NotAuthorized, s) else
    let s1 : State := { s with institutionTokens := fupd s.institutionTokens institution_code (removeCode (s.institutionTokens institution_code) token_code) }
    let s2 : State := { s1 with userTokens := fupd s1.userTokens who ((s1.userTokens who).filter (fun p => decide (p.1 ≠ token_code ∨ p.2 ≠ institution_code))) }
    (none, { s2 with tokens := fupd s2.tokens (token_code, institution_code) none })

/-- The tail of `trade_token` after the `Tokens::try_mutate` commit: re-read
the token and, in `Buy` mode, append the pair to the caller's `UserTokens`
bucket unless already present. -/
def tradeTokenAfter (who : Nat) (token_code institution_code : List Nat)
    (s1 : State) : Option Err × State :=
  match s1.tokens (token_code, institution_code) with
  | none => (some .TokenNotFound, s1)
  | some token_info =>
    if token_info.token_trade_direction = TokenTradableDirection.Buy then
      if (token_code, institution_code) ∈ s1.userTokens who then (none, s1)
      else
        match tryPush 1000 (s1.userTokens who) (token_code, institution_code) with
        | none => (some .UserTokenListFull, s1)
        | some ul => (none, { s1 with userTokens := fupd s1.userTokens who ul })
    else (none, s1)

/-- `trade_token` of the c2c-token pallet: the stock/sales mutation inside
`Tokens::try_mutate`, then a re-read and, in `Buy` mode, the `UserTokens`
append guarded by a `contains` check. -/
def trade_token (cfg : Config) (who : Nat)
    (token_code institution_code : List Nat) (quantity : Nat)
    (s : State) : Option Err × State :=
  if cfg.maxTokenCodeLength < token_code.length then (some .StringConversionError, s) else
  if cfg.maxInstitutionCodeLength < institution_code.length then (some .StringConversionError, s) else
  match s.tokens (token_code, institution_code) with
  | none => (some .TokenNotFound, s)
  | some token =>
    if token.status ≠ TokenStatus.Available then (some .TokenNotFound, s) else
    match token.token_trade_direction with
    | .Sell =>
      if token.stock_quantity < quantity then (some .InsufficientStock, s) else
      let t2 : TokenInfo := { token with
        stock_quantity := token.stock_quantity - quantity,
        sales_quantity := satAdd32 token.sales_quantity quantity }
      let s1 : State := { s with tokens := fupd s.tokens (token_code, institution_code) (some t2) }
      tradeTokenAfter who token_code institution_code s1
    | .Buy =>
      let t2 : TokenInfo := { token with stock_quantity := satAdd32 token.stock_quantity quantity }
      let s1 : State := { s with tokens := fupd s.tokens (token_code, institution_code) (some t2) }
      tradeTokenAfter who token_code institution_code s1

end Token

namespace Product

/-- `ProductStatus` of the product pallet. -/
inductive ProductStatus : Type
  | Available
  | Unavailable
  deriving DecidableEq, Repr

/-- The `ProductInfo` record of the product pallet.  The source field
`profit_ratio : Perbill` is embedded as the `Nat` field `profit_perbill`
(a `Perbill` is a fixed-point fraction carried as an integer). -/
structure ProductInfo : Type where
  product_name : List Nat
  category : List Nat
  brand : List Nat
  authorized_member_groups : List (List Nat)
  original_price : Nat
  current_price : Nat
  description : List Nat
  main_image : List Nat
  detail_images : List (List Nat)
  stock_quantity : Nat
  sales_quantity : Nat
  weight : Nat
  status : ProductStatus
  profit_perbill : Nat
  created_date : Nat
  creator : Nat
  deriving DecidableEq, Repr

/-- Length and size bounds supplied by the pallet `Config`. -/
structure Config : Type where
  maxProductCodeLength : Nat
  maxInstitutionCodeLength : Nat
  maxNameLength : Nat
  maxCategoryLength : Nat
  maxBrandLength : Nat
  maxAuthorizedMemberGroup : Nat
  maxAuthorizedGroups : Nat
  maxDescriptionLength : Nat
  maxImageUrlLength : Nat
  maxDetailImages : Nat

/-- The pallet errors. -/
inductive Err : Type
  | ProductAlreadyExists
  | ProductNotFound
  | NotAuthorized
  | StringConversionError
  | TooManyAuthorizedGroups
  | TooManyDetailImages
  | InvalidPrice
  | InvalidProfitRatioCode
  | InstitutionProductListFull
  | InsufficientStock
  | InvalidStatus
  deriving DecidableEq, Repr

/-- The pallet storage: `Products` (double map) and `InstitutionProducts`. -/
structure State : Type where
  products : List Nat × List Nat → Option ProductInfo
  institutionProducts : List Nat → List (List Nat)

/-- Empty storage. -/
def emptyState : State :=
  { products := fun _ => none
    institutionProducts := fun _ => [] }

/-- Decoding of the wire `u8` into `ProductStatus`. -/
def decodeStatus (code : Nat) : Option ProductStatus :=
  match code with
  | 0 => some .Available
  | 1 => some .Unavailable
  | _ => none

/-- The per-element bounded conversion loop over a list of byte strings. -/
def convAll (max : Nat) : List (List Nat) → Option (List (List Nat))
  | [] => some []
  | v :: rest =>
    if max < v.length then none
    else
      match convAll max rest with
      | none => none
      | some l => some (v :: l)

/-- The commit tail of `create_product`: the primary insert followed by the
fallible `InstitutionProducts` append. -/
def create_product_store (product_code institution_code : List Nat)
    (info : ProductInfo) (s : State) : Option Err × State :=
  let s1 : State := { s with products := fupd s.products (product_code, institution_code) (some info) }
  match tryPush 10000 (s1.institutionProducts institution_code) product_code with
  | none => (some .InstitutionProductListFull, s1)
  | some il => (none, { s1 with institutionProducts := fupd s1.institutionProducts institution_code il })

/-- Image stage of `create_product`: description, main image and detail
images validation, then the commit tail. -/
def create_product_images (cfg : Config) (who : Nat)
    (product_code institution_code product_name category brand : List Nat)
    (groups : List (List Nat)) (original_price current_price : Nat)
    (description main_image : List Nat) (detail_images : List (List Nat))
    (stock_quantity weight profit now : Nat)
    (s : State) : Option Err × State :=
  if cfg.maxDescriptionLength < description.length then (some .StringConversionError, s) else
  if cfg.maxImageUrlLength < main_image.length then (some .StringConversionError, s) else
  match convAll cfg.maxImageUrlLength detail_images with
  | none => (some .StringConversionError, s)
  | some dimages =>
    if cfg.maxDetailImages < dimages.length then (some .TooManyDetailImages, s) else
    create_product_store product_code institution_code
      { product_name := product_name
        category := category
        brand := brand
        authorized_member_groups := groups
        original_price := original_price
        current_price := current_price
        description := description
        main_image := main_image
        detail_images := dimages
        stock_quantity := stock_quantity
        sales_quantity := 0
        weight := weight
        status := .Available
        profit_perbill := profit
        created_date := now
        creator := who } s

/-- Group stage of `create_product`: authorized-member-group validation. -/
def create_product_groups (cfg : Config) (who : Nat)
    (product_code institution_code product_name category brand : List Nat)
    (authorized_member_groups : List (List Nat)) (original_price current_price : Nat)
    (description main_image : List Nat) (detail_images : List (List Nat))
    (stock_quantity weight profit now : Nat)
    (s : State) : Option Err × State :=
  match convAll cfg.maxAuthorizedMemberGroup authorized_member_groups with
  | none => (some .StringConversionError, s)
  | some groups =>
    if cfg.maxAuthorizedGroups < groups.length then (some .TooManyAuthorizedGroups, s) else
    create_product_images cfg who product_code institution_code product_name category brand
      groups original_price current_price description main_image detail_images
      stock_quantity weight profit now s

/-- `create_product` of the product pallet, staged in source order: key
conversions and duplicate/price checks, string-field validation, then the
group, image and commit stages. -/
def create_product (cfg : Config) (who : Nat)
    (product_code institution_code product_name category brand : List Nat)
    (authorized_member_groups : List (List Nat))
    (original_price current_price : Nat)
    (description main_image : List Nat)
    (detail_images : List (List Nat))
    (stock_quantity weight profit : Nat) (now : Nat)
    (s : State) : Option Err × State :=
  if cfg.maxProductCodeLength < product_code.length then (some .StringConversionError, s) else
  if cfg.maxInstitutionCodeLength < institution_code.length then (some .StringConversionError, s) else
  if (s.products (product_code, institution_code)).isSome then (some .ProductAlreadyExists, s) else
  if original_price < current_price then (some .InvalidPrice, s) else
  if cfg.maxNameLength < product_name.length then (some .StringConversionError, s) else
  if cfg.maxCategoryLength < category.length then (some .StringConversionError, s) else
  if cfg.maxBrandLength < brand.length then (some .StringConversionError, s) else
  create_product_groups cfg who product_code institution_code product_name category brand
    authorized_member_groups original_price current_price description main_image detail_images
    stock_quantity weight profit now s

/-- Stage 7 of the `update_product_info` closure: optional weight and profit
fields (no validation). -/
def productUpd7 (p : ProductInfo) (weight profit : Option Nat) : ProductInfo :=
  match weight, profit with
  | none, none => p
  | some w, none => { p with weight := w }
  | none, some pr => { p with profit_perbill := pr }
  | some w, some pr => { p with weight := w, profit_perbill := pr }

/-- Stage 6 of the `update_product_info` closure: the optional main image. -/
def productUpd6 (cfg : Config) (p : ProductInfo) (main_image : Option (List Nat))
    (weight profit : Option Nat) : Except Err ProductInfo :=
  match main_image with
  | none => .ok (productUpd7 p weight profit)
  | some img =>
    if cfg.maxImageUrlLength < img.length then .error .StringConversionError
    else .ok (productUpd7 { p with main_image := img } weight profit)

/-- Stage 5 of the `update_product_info` closure: the optional description. -/
def productUpd5 (cfg : Config) (p : ProductInfo) (description : Option (List Nat))
    (main_image : Option (List Nat)) (weight profit : Option Nat) : Except Err ProductInfo :=
  match description with
  | none => productUpd6 cfg p main_image weight profit
  | some d =>
    if cfg.maxDescriptionLength < d.length then .error .StringConversionError
    else productUpd6 cfg { p with description := d } main_image weight profit

/-- Stage 4 of the `update_product_info` closure: apply the optional prices and
run the `current_price ≤ original_price` check. -/
def productUpd4 (cfg : Config) (p : ProductInfo)
    (original_price current_price : Option Nat)
    (description main_image : Option (List Nat)) (weight profit : Option Nat) :
    Except Err ProductInfo :=
  let p4 :=
    match original_price with
    | none => p
    | some op => { p with original_price := op }
  let p5 :=
    match current_price with
    | none => p4
    | some cp => { p4 with current_price := cp }
  if p5.original_price < p5.current_price then .error .InvalidPrice
  else productUpd5 cfg p5 description main_image weight profit

/-- Stage 3 of the `update_product_info` closure: the optional brand. -/
def productUpd3 (cfg : Config) (p : ProductInfo) (brand : Option (List Nat))
    (original_price current_price : Option Nat)
    (description main_image : Option (List Nat)) (weight profit : Option Nat) :
    Except Err ProductInfo :=
  match brand with
  | none => productUpd4 cfg p original_price current_price description main_image weight profit
  | some b =>
    if cfg.maxBrandLength < b.length then .error .StringConversionError
    else productUpd4 cfg { p with brand := b } original_price current_price description main_image weight profit

/-- Stage 2 of the `update_product_info` closure: the optional category. -/
def productUpd2 (cfg : Config) (p : ProductInfo) (category : Option (List Nat))
    (brand : Option (List Nat)) (original_price current_price : Option Nat)
    (description main_image : Option (List Nat)) (weight profit : Option Nat) :
    Except Err ProductInfo :=
  match category with
  | none => productUpd3 cfg p brand original_price current_price description main_image weight profit
  | some c =>
    if cfg.maxCategoryLength < c.length then .error .StringConversionError
    else productUpd3 cfg { p with category := c } brand original_price current_price description main_image weight profit

/-- The body of the `update_product_info` closure: apply the supplied optional
fields in source order; the `current_price ≤ original_price` check runs after
the two price fields are applied and before the remaining fields. -/
def applyProductUpdates (cfg : Config) (p : ProductInfo)
    (product_name category brand : Option (List Nat))
    (original_price current_price : Option Nat)
    (description main_image : Option (List Nat))
    (weight profit : Option Nat) : Except Err ProductInfo :=
  match product_name with
  | none => productUpd2 cfg p category brand original_price current_price description main_image weight profit
  | some nm =>
    if cfg.maxNameLength < nm.length then .error .StringConversionError
    else productUpd2 cfg { p with product_name := nm } category brand original_price current_price description main_image weight profit

/-- `update_product_info` of the product pallet: optional-field update inside
`Products::try_mutate`; on any closure error nothing is persisted. -/
def update_product_info (cfg : Config) (who : Nat)
    (product_code institution_code : List Nat)
    (product_name category brand : Option (List Nat))
    (original_price current_price : Option Nat)
    (description main_image : Option (List Nat))
    (weight profit : Option Nat)
    (s : State) : Option Err × State :=
  if cfg.maxProductCodeLength < product_code.length then (some .StringConversionError, s) else
  if cfg.maxInstitutionCodeLength < institution_code.length then (some .StringConversionError, s) else
  match s.products (product_code, institution_code) with
  | none => (some .ProductNotFound, s)
  | some p =>
    if p.creator ≠ who then (some .NotAuthorized, s) else
    match applyProductUpdates cfg p product_name category brand original_price current_price description main_image weight profit with
    | .error e => (some e, s)
    | .ok p2 => (none, { s with products := fupd s.products (product_code, institution_code) (some p2) })

/-- `update_product_status` of the product pallet. -/
def update_product_status (cfg : Config) (who : Nat)
    (product_code institution_code : List Nat) (status : Nat)
    (s : State) : Option Err × State :=
  if cfg.maxProductCodeLength < product_code.length then (some .StringConversionError, s) else
  if cfg.maxInstitutionCodeLength < institution_code.length then (some .StringConversionError, s) else
  match s.products (product_code, institution_code) with
  | none => (some .ProductNotFound, s)
  | some p =>
    if p.creator ≠ who then (some .NotAuthorized, s) else
    match decodeStatus status with
    | none => (some .InvalidStatus, s)
    | some new_status =>
      (none, { s with products := fupd s.products (product_code, institution_code) (some { p with status := new_status }) })

/-- `update_stock` of the product pallet. -/
def update_stock (cfg : Config) (who : Nat)
    (product_code institution_code : List Nat) (new_stock : Nat)
    (s : State) : Option Err × State :=
  if cfg.maxProductCodeLength < product_code.length then (some .StringConversionError, s) else
  if cfg.maxInstitutionCodeLength < institution_code.length then (some .StringConversionError, s) else
  match s.products (product_code, institution_code) with
  | none => (some .ProductNotFound, s)
  | some p =>
    if p.creator ≠ who then (some .NotAuthorized, s) else
    (none, { s with products := fupd s.products (product_code, institution_code) (some { p with stock_quantity := new_stock }) })

/-- `delete_product` of the product pallet. -/
def delete_product (cfg : Config) (who : Nat)
    (product_code institution_code : List Nat)
    (s : State) : Option Err × State :=
  if cfg.maxProductCodeLength < product_code.length then (some .StringConversionError, s) else
  if cfg.maxInstitutionCodeLength < institution_code.length then (some .StringConversionError, s) else
  match s.products (product_code, institution_code) with
  | none => (some .ProductNotFound, s)
  | some p =>
    if p.creator ≠ who then (some .NotAuthorized, s) else
    let s1 : State := { s with institutionProducts := fupd s.institutionProducts institution_code (removeCode (s.institutionProducts institution_code) product_code) }
    (none, { s1 with products := fupd s1.products (product_code, institution_code) none })

/-- `purchase_product` of the product pallet: no creator check; an
`Unavailable` product is reported as `ProductNotFound`; the signed caller is
unused, as in the source (`_who`). -/
def purchase_product (cfg : Config) (_who : Nat)
    (product_code institution_code : List Nat) (quantity : Nat)
    (s : State) : Option Err × State :=
  if cfg.maxProductCodeLength < product_code.length then (some .StringConversionError, s) else
  if cfg.maxInstitutionCodeLength < institution_code.length then (some .StringConversionError, s) else
  match s.products (product_code, institution_code) with
  | none => (some .ProductNotFound, s)
  | some p =>
    if p.status ≠ ProductStatus.Available then (some .ProductNotFound, s) else
    if p.stock_quantity < quantity then (some .InsufficientStock, s) else
    (none, { s with products := fupd s.products (product_code, institution_code) (some { p with stock_quantity := p.stock_quantity - quantity, sales_quantity := satAdd32 p.sales_quantity quantity }) })

/-- The command surface of the product pallet. -/
inductive Cmd : Type
  | create (who : Nat) (pc ic pn cat br : List Nat) (groups : List (List Nat))
      (op cp : Nat) (desc mi : List Nat) (dimgs : List (List Nat))
      (stock w profit now : Nat)
  | updateInfo (who : Nat) (pc ic : List Nat) (pn cat br : Option (List Nat))
      (op cp : Option Nat) (desc mi : Option (List Nat)) (w profit : Option Nat)
  | updateStatus (who : Nat) (pc ic : List Nat) (st : Nat)
  | updateStock (who : Nat) (pc ic : List Nat) (n : Nat)
  | delete (who : Nat) (pc ic : List Nat)
  | purchase (who : Nat) (pc ic : List Nat) (q : Nat)

/-- Dispatch of one command. -/
def step (cfg : Config) : Cmd → State → Option Err × State
  | .create who pc ic pn cat br groups op cp desc mi dimgs stock w profit now, s =>
    create_product cfg who pc ic pn cat br groups op cp desc mi dimgs stock w profit now s
  | .updateInfo who pc ic pn cat br op cp desc mi w profit, s =>
    update_product_info cfg who pc ic pn cat br op cp desc mi w profit s
  | .updateStatus who pc ic st, s => update_product_status cfg who pc ic st s
  | .updateStock who pc ic n, s => update_stock cfg who pc ic n s
  | .delete who pc ic, s => delete_product cfg who pc ic s
  | .purchase who pc ic q, s => purchase_product cfg who pc ic q s

/-- States reachable from empty storage by any sequence of commands; the
post-state of a failing command is included as well, so the invariant below
holds even across failed dispatches. -/
inductive Reachable (cfg : Config) : State → Prop
  | empty : Reachable cfg emptyState
  | step {s s' : State} {c : Cmd} {e : Option Err} :
      Reachable cfg s → step cfg c s = (e, s') → Reachable cfg s'

/-- I5 for the product pallet, on a bare products map. -/
def PriceInvMap (m : List Nat × List Nat → Option ProductInfo) : Prop :=
  ∀ k p, m k = some p → p.current_price ≤ p.original_price

/-- I5 for the product pallet: every stored product has
`current_price ≤ original_price`. -/
def PriceInv (s : State) : Prop := PriceInvMap s.products

end Product

namespace Institution

/-- `InstitutionStatus` of the institution pallet. -/
inductive InstitutionStatus : Type
  | Certified
  | NotCertified
  | Deactivated
  deriving DecidableEq, Repr

/-- The `InstitutionInfo` record of the institution pallet. -/
structure InstitutionInfo : Type where
  institution_name : List Nat
  status : InstitutionStatus
  institution_full_name : List Nat
  license_image_url : List Nat
  responsible_person : List Nat
  business_scope : List Nat
  profit_contract : Option (List Nat)
  created_date : Nat
  creator : Nat
  deriving DecidableEq, Repr

/-- Length bounds supplied by the pallet `Config`. -/
structure Config : Type where
  maxInstitutionIdLength : Nat
  maxNameLength : Nat
  maxResponsiblePersonLength : Nat
  maxBusinessScopeLength : Nat
  maxContractLength : Nat

/-- The pallet errors. -/
inductive Err : Type
  | InstitutionIdAlreadyExists
  | InstitutionNotFound
  | NotAuthorized
  | StringConversionError
  | InvalidStatus
  deriving DecidableEq, Repr

/-- The pallet storage: the single `Institutions` map (no secondary index). -/
structure State : Type where
  institutions : List Nat → Option InstitutionInfo

/-- Empty storage. -/
def emptyState : State := { institutions := fun _ => none }

/-- Decoding of the wire `u8` into `InstitutionStatus`. -/
def decodeStatus (code : Nat) : Option InstitutionStatus :=
  match code with
  | 0 => some .Certified
  | 1 => some .NotCertified
  | 2 => some .Deactivated
  | _ => none

/-- `create_institution` of the institution pallet. -/
def create_institution (cfg : Config) (who : Nat)
    (institution_id institution_name institution_full_name license_image_url responsible_person business_scope : List Nat)
    (profit_contract : Option (List Nat)) (now : Nat)
    (s : State) : Option Err × State :=
  if cfg.maxInstitutionIdLength < institution_id.length then (some .StringConversionError, s) else
  if (s.institutions institution_id).isSome then (some .InstitutionIdAlreadyExists, s) else
  if cfg.maxNameLength < institution_name.length then (some .StringConversionError, s) else
  if cfg.maxNameLength < institution_full_name.length then (some .StringConversionError, s) else
  if cfg.maxNameLength < license_image_url.length then (some .StringConversionError, s) else
  if cfg.maxResponsiblePersonLength < responsible_person.length then (some .StringConversionError, s) else
  if cfg.maxBusinessScopeLength < business_scope.length then (some .StringConversionError, s) else
  match
    match profit_contract with
    | none => some none
    | some c => if cfg.maxContractLength < c.length then none else some (some c)
  with
  | none => (some .StringConversionError, s)
  | some bc =>
    let info : InstitutionInfo :=
      { institution_name := institution_name
        status := .NotCertified
        institution_full_name := institution_full_name
        license_image_url := license_image_url
        responsible_person := responsible_person
        business_scope := business_scope
        profit_contract := bc
        created_date := now
        creator := who }
    (none, { s with institutions := fupd s.institutions institution_id (some info) })

/-- `update_institution_status` of the institution pallet. -/
def update_institution_status (cfg : Config) (who : Nat)
    (institution_id : List Nat) (status : Nat)
    (s : State) : Option Err × State :=
  if cfg.maxInstitutionIdLength < institution_id.length then (some .StringConversionError, s) else
  match s.institutions institution_id with
  | none => (some .InstitutionNotFound, s)
  | some inst =>
    if inst.creator ≠ who then (some .NotAuthorized, s) else
    match decodeStatus status with
    | none => (some .InvalidStatus, s)
    | some new_status =>
      (none, { s with institutions := fupd s.institutions institution_id (some { inst with status := new_status }) })

/-- Stage 6 of the `update_institution_info` closure: the optional contract. -/
def instUpd6 (cfg : Config) (i : InstitutionInfo)
    (profit_contract : Option (List Nat)) : Except Err InstitutionInfo :=
  match profit_contract with
  | none => .ok i
  | some v =>
    if cfg.maxContractLength < v.length then .error .StringConversionError
    else .ok { i with profit_contract := some v }

/-- Stage 5 of the `update_institution_info` closure: the business scope. -/
def instUpd5 (cfg : Config) (i : InstitutionInfo)
    (business_scope profit_contract : Option (List Nat)) : Except Err InstitutionInfo :=
  match business_scope with
  | none => instUpd6 cfg i profit_contract
  | some v =>
    if cfg.maxBusinessScopeLength < v.length then .error .StringConversionError
    else instUpd6 cfg { i with business_scope := v } profit_contract

/-- Stage 4 of the `update_institution_info` closure: the responsible person. -/
def instUpd4 (cfg : Config) (i : InstitutionInfo)
    (responsible_person business_scope profit_contract : Option (List Nat)) :
    Except Err InstitutionInfo :=
  match responsible_person with
  | none => instUpd5 cfg i business_scope profit_contract
  | some v =>
    if cfg.maxResponsiblePersonLength < v.length then .error .StringConversionError
    else instUpd5 cfg { i with responsible_person := v } business_scope profit_contract

/-- Stage 3 of the `update_institution_info` closure: the license image URL. -/
def instUpd3 (cfg : Config) (i : InstitutionInfo)
    (license_image_url responsible_person business_scope profit_contract : Option (List Nat)) :
    Except Err InstitutionInfo :=
  match license_image_url with
  | none => instUpd4 cfg i responsible_person business_scope profit_contract
  | some v =>
    if cfg.maxNameLength < v.length then .error .StringConversionError
    else instUpd4 cfg { i with license_image_url := v } responsible_person business_scope profit_contract

/-- Stage 2 of the `update_institution_info` closure: the full name. -/
def instUpd2 (cfg : Config) (i : InstitutionInfo)
    (institution_full_name license_image_url responsible_person business_scope profit_contract : Option (List Nat)) :
    Except Err InstitutionInfo :=
  match institution_full_name with
  | none => instUpd3 cfg i license_image_url responsible_person business_scope profit_contract
  | some v =>
    if cfg.maxNameLength < v.length then .error .StringConversionError
    else instUpd3 cfg { i with institution_full_name := v } license_image_url responsible_person business_scope profit_contract

/-- The body of the `update_institution_info` closure: apply the supplied
optional fields in source order.  A supplied `profit_contract` always sets
the stored option to `some`. -/
def applyInstitutionUpdates (cfg : Config) (inst : InstitutionInfo)
    (institution_name institution_full_name license_image_url responsible_person business_scope profit_contract : Option (List Nat)) :
    Except Err InstitutionInfo :=
  match institution_name with
  | none => instUpd2 cfg inst institution_full_name license_image_url responsible_person business_scope profit_contract
  | some v =>
    if cfg.maxNameLength < v.length then .error .StringConversionError
    else instUpd2 cfg { inst with institution_name := v } institution_full_name license_image_url responsible_person business_scope profit_contract

/-- `update_institution_info` of the institution pallet: optional-field update
inside `Institutions::try_mutate`; on any closure error nothing is persisted. -/
def update_institution_info (cfg : Config) (who : Nat)
    (institution_id : List Nat)
    (institution_name institution_full_name license_image_url responsible_person business_scope profit_contract : Option (List Nat))
    (s : State) : Option Err × State :=
  if cfg.maxInstitutionIdLength < institution_id.length then (some .StringConversionError, s) else
  match s.institutions institution_id with
  | none => (some .InstitutionNotFound, s)
  | some inst =>
    if inst.creator ≠ who then (some .NotAuthorized, s) else
    match applyInstitutionUpdates cfg inst institution_name institution_full_name license_image_url responsible_person business_scope profit_contract with
    | .error e => (some e, s)
    | .ok i2 => (none, { s with institutions := fupd s.institutions institution_id (some i2) })

/-- `delete_institution` of the institution pallet. -/
def delete_institution (cfg : Config) (who : Nat) (institution_id : List Nat)
    (s : State) : Option Err × State :=
  if cfg.maxInstitutionIdLength < institution_id.length then (some .StringConversionError, s) else
  match s.institutions institution_id with
  | none => (some .InstitutionNotFound, s)
  | some inst =>
    if inst.creator ≠ who then (some .NotAuthorized, s) else
    (none, { s with institutions := fupd s.institutions institution_id none })

end Institution

namespace Payment

/-- The `PaymentMethod` record of the institution-payment-method pallet.
It carries no creator field. -/
structure PaymentMethod : Type where
  wechat : Option (List Nat)
  alipay : Option (List Nat)
  token : Option (List Nat)
  other : Option (List Nat)
  deriving DecidableEq, Repr

/-- Length bounds supplied by the pallet `Config`. -/
structure Config : Type where
  maxInstitutionIdLength : Nat
  maxPaymentLength : Nat

/-- The pallet errors. -/
inductive Err : Type
  | InstitutionNotFound
  | PaymentMethodAlreadyExists
  | PaymentMethodNotFound
  | NotAuthorized
  | StringConversionError
  | AtLeastOnePaymentMethodRequired
  deriving DecidableEq, Repr

/-- The pallet storage: the single `PaymentMethods` map. -/
structure State : Type where
  paymentMethods : List Nat → Option PaymentMethod

/-- Empty storage. -/
def emptyState : State := { paymentMethods := fun _ => none }

/-- Bounded conversion of an optional byte string. -/
def convOpt (max : Nat) : Option (List Nat) → Option (Option (List Nat))
  | none => some none
  | some v => if max < v.length then none else some (some v)

/-- `set_payment_method` of the institution-payment-method pallet: inserts or
overwrites the record for any signed caller — there is no creator check. -/
def set_payment_method (cfg : Config) (_who : Nat) (institution_id : List Nat)
    (wechat alipay token other : Option (List Nat))
    (s : State) : Option Err × State :=
  if cfg.maxInstitutionIdLength < institution_id.length then (some .StringConversionError, s) else
  if ¬ (wechat.isSome ∨ alipay.isSome ∨ token.isSome ∨ other.isSome) then
    (some .AtLeastOnePaymentMethodRequired, s)
  else
  match convOpt cfg.maxPaymentLength wechat with
  | none => (some .StringConversionError, s)
  | some bw =>
    match convOpt cfg.maxPaymentLength alipay with
    | none => (some .StringConversionError, s)
    | some ba =>
      match convOpt cfg.maxPaymentLength token with
      | none => (some .StringConversionError, s)
      | some bt =>
        match convOpt cfg.maxPaymentLength other with
        | none => (some .StringConversionError, s)
        | some bo =>
          (none, { s with paymentMethods := fupd s.paymentMethods institution_id (some { wechat := bw, alipay := ba, token := bt, other := bo }) })

/-- `remove_payment_method` of the institution-payment-method pallet: deletes
the record for any signed caller — there is no creator check. -/
def remove_payment_method (cfg : Config) (_who : Nat) (institution_id : List Nat)
    (s : State) : Option Err × State :=
  if cfg.maxInstitutionIdLength < institution_id.length then (some .StringConversionError, s) else
  if ¬ (s.paymentMethods institution_id).isSome then (some .PaymentMethodNotFound, s) else
  (none, { s with paymentMethods := fupd s.paymentMethods institution_id none })

/-- `update_payment_field` of the institution-payment-method pallet: mutates
one field of the record for any signed caller — there is no creator check. -/
def update_payment_field (cfg : Config) (_who : Nat) (institution_id : List Nat)
    (field_type : Nat) (value : Option (List Nat))
    (s : State) : Option Err × State :=
  if cfg.maxInstitutionIdLength < institution_id.length then (some .StringConversionError, s) else
  match convOpt cfg.maxPaymentLength value with
  | none => (some .StringConversionError, s)
  | some bv =>
    match s.paymentMethods institution_id with
    | none => (some .PaymentMethodNotFound, s)
    | some pm =>
      match field_type with
      | 0 => (none, { s with paymentMethods := fupd s.paymentMethods institution_id (some { pm with wechat := bv }) })
      | 1 => (none, { s with paymentMethods := fupd s.paymentMethods institution_id (some { pm with alipay := bv }) })
      | 2 => (none, { s with paymentMethods := fupd s.paymentMethods institution_id (some { pm with token := bv }) })
      | 3 => (none, { s with paymentMethods := fupd s.paymentMethods institution_id (some { pm with other := bv }) })
      | _ => (some .StringConversionError, s)

end Payment

namespace Freight

/-- The `FreightTemplate` record of the institution-freight-template pallet. -/
structure FreightTemplate : Type where
  area : List Nat
  first_weight : Nat
  first_weight_fee : Nat
  additional_weight_fee : Nat
  creator : Nat
  deriving DecidableEq, Repr

/-- Length bound supplied by the pallet `Config`. -/
structure Config : Type where
  maxCustomAreaLength : Nat

/-- The pallet errors. -/
inductive Err : Type
  | AreaAlreadyExists
  | FreightTemplateNotFound
  | NotAuthorized
  | StringConversionError
  deriving DecidableEq, Repr

/-- The pallet storage: the single `FreightTemplates` map. -/
structure State : Type where
  freightTemplates : List Nat → Option FreightTemplate

/-- Empty storage. -/
def emptyState : State := { freightTemplates := fun _ => none }

/-- `create_freight_template` of the institution-freight-template pallet. -/
def create_freight_template (cfg : Config) (who : Nat) (area : List Nat)
    (first_weight first_weight_fee additional_weight_fee : Nat)
    (s : State) : Option Err × State :=
  if cfg.maxCustomAreaLength < area.length then (some .StringConversionError, s) else
  if (s.freightTemplates area).isSome then (some .AreaAlreadyExists, s) else
  (none, { s with freightTemplates := fupd s.freightTemplates area (some { area := area, first_weight := first_weight, first_weight_fee := first_weight_fee, additional_weight_fee := additional_weight_fee, creator := who }) })

/-- `update_freight_template` of the institution-freight-template pallet
(creator-checked). -/
def update_freight_template (cfg : Config) (who : Nat) (area : List Nat)
    (first_weight first_weight_fee additional_weight_fee : Option Nat)
    (s : State) : Option Err × State :=
  if cfg.maxCustomAreaLength < area.length then (some .StringConversionError, s) else
  match s.freightTemplates area with
  | none => (some .FreightTemplateNotFound, s)
  | some t =>
    if t.creator ≠ who then (some .NotAuthorized, s) else
    let t1 : FreightTemplate :=
      { t with first_weight := first_weight.getD t.first_weight,
               first_weight_fee := first_weight_fee.getD t.first_weight_fee,
               additional_weight_fee := additional_weight_fee.getD t.additional_weight_fee }
    (none, { s with freightTemplates := fupd s.freightTemplates area (some t1) })

/-- `delete_freight_template` of the institution-freight-template pallet
(creator-checked). -/
def delete_freight_template (cfg : Config) (who : Nat) (area : List Nat)
    (s : State) : Option Err × State :=
  if cfg.maxCustomAreaLength < area.length then (some .StringConversionError, s) else
  match s.freightTemplates area with
  | none => (some .FreightTemplateNotFound, s)
  | some t =>
    if t.creator ≠ who then (some .NotAuthorized, s) else
    (none, { s with freightTemplates := fupd s.freightTemplates area none })

end Freight

namespace Token

/-- The record an accepted `update_token_info` is expected to store: exactly
the supplied optional fields change. -/
def expectedToken (t : TokenInfo) (token_name category : Option (List Nat))
    (price : Option Nat) (token_trade_direction : Option Nat) : TokenInfo :=
  { t with
    token_name := token_name.getD t.token_name,
    category := category.getD t.category,
    price := price.getD t.price,
    token_trade_direction := (token_trade_direction.bind decodeDirection).getD t.token_trade_direction }

end Token

namespace Product

/-- The record an accepted `update_product_info` is expected to store:
exactly the supplied optional fields change. -/
def expectedProduct (p : ProductInfo) (product_name category brand : Option (List Nat))
    (original_price current_price : Option Nat) (description main_image : Option (List Nat))
    (weight profit : Option Nat) : ProductInfo :=
  { p with
    product_name := product_name.getD p.product_name,
    category := category.getD p.category,
    brand := brand.getD p.brand,
    original_price := original_price.getD p.original_price,
    current_price := current_price.getD p.current_price,
    description := description.getD p.description,
    main_image := main_image.getD p.main_image,
    weight := weight.getD p.weight,
    profit_perbill := profit.getD p.profit_perbill }

end Product

namespace Institution

/-- The record an accepted `update_institution_info` is expected to store:
exactly the supplied optional fields change, a supplied contract becoming
`some`. -/
def expectedInstitution (i : InstitutionInfo)
    (institution_name institution_full_name license_image_url responsible_person business_scope profit_contract : Option (List Nat)) :
    InstitutionInfo :=
  { i with
    institution_name := institution_name.getD i.institution_name,
    institution_full_name := institution_full_name.getD i.institution_full_name,
    license_image_url := license_image_url.getD i.license_image_url,
    responsible_person := responsible_person.getD i.responsible_person,
    business_scope := business_scope.getD i.business_scope,
    profit_contract := profit_contract.elim i.profit_contract some }

end Institution

/-! ### Witness and counterexample fixtures -/

/-- A pending order by account 0, used as a concrete test record. -/
def wOrder : C2C.Order :=
  { order_code := [1]
    member_code := [2]
    institution_code := [3]
    status := .Pending
    direction := .UserBuy
    created_time := 0
    updated_time := 0
    transaction_amount := 1
    total_amount := 1
    creator := 0 }

/-- A c2c-order state holding just `wOrder` under key `[1]`. -/
def wState : C2C.State :=
  { orders := fun k => if k = [1] then some wOrder else none
    userOrders := fun _ => []
    institutionOrders := fun _ => []
    ordersByStatus := fun st => if st = .Pending then [[1]] else [] }

/-- An unavailable product by account 0, used as a concrete test record. -/
def wProduct : Product.ProductInfo :=
  { product_name := [10]
    category := [11]
    brand := [12]
    authorized_member_groups := []
    original_price := 9
    current_price := 5
    description := []
    main_image := []
    detail_images := []
    stock_quantity := 4
    sales_quantity := 0
    weight := 1
    status := .Unavailable
    profit_perbill := 0
    created_date := 0
    creator := 0 }

/-- A product state holding just `wProduct` under key `([1], [2])`. -/
def wProductState : Product.State :=
  { products := fun k => if k = ([1], [2]) then some wProduct else none
    institutionProducts := fun i => if i = [2] then [[1]] else [] }

/-- An unavailable token by account 0, used as a concrete test record. -/
def wToken : Token.TokenInfo :=
  { institution_code := [2]
    token_name := [10]
    category := [11]
    price := 5
    token_trade_direction := .Sell
    stock_quantity := 4
    sales_quantity := 0
    status := .Unavailable
    creator := 0 }

/-- A token state holding just `wToken` under key `([1], [2])`. -/
def wTokenState : Token.State :=
  { tokens := fun k => if k = ([1], [2]) then some wToken else none
    institutionTokens := fun i => if i = [2] then [[1]] else []
    userTokens := fun _ => [] }

/-- Two concrete create requests with distinct keys, by different accounts. -/
def c6Reqs : List C2C.CreateReq :=
  [{ who := 0, oc := [1], mc := [2], ic := [3], dir := 1, ta := 1, tot := 1, now := 0 },
   { who := 4, oc := [5], mc := [2], ic := [3], dir := 0, ta := 2, tot := 3, now := 1 }]

/-- A plain-order pallet configuration for concrete runs. -/
def cfg9 : Ord.Config := { maxOrderCodeLength := 64, maxMemberCodeLength := 64, maxInstitutionIdLength := 64, maxOrderItems := 64, maxExpressCompanyLength := 64, maxExpressNumberLength := 64 }

/-- Two concrete plain-order create requests with distinct keys. -/
def c6ReqsP : List Ord.CreateReq :=
  [{ who := 0, oc := [1], mc := [2], ic := [3], freight := 4,
     phone := none, email := none, address := none,
     items := [([9], 1, 2, 3)], now := 0 },
   { who := 5, oc := [6], mc := [2], ic := [3], freight := 0,
     phone := some [1], email := none, address := none,
     items := [([9], 2, 2, 3)], now := 1 }]

/-- A payment-method state built by account 0 setting a wechat-only payment
method for institution `[4]`. -/
def pmS1 : Payment.State :=
  (Payment.set_payment_method ⟨64, 64⟩ 0 [4] (some [7]) none none none Payment.emptyState).2

/-- A c2c-order state whose `UserOrders` bucket for member `[2]` is at its
capacity of 1000. -/
def c1StateA : C2C.State :=
  { orders := fun _ => none
    userOrders := fun m => if m = [2] then List.replicate 1000 [0] else []
    institutionOrders := fun _ => []
    ordersByStatus := fun _ => [] }

/-- A c2c-order state holding `wOrder` whose `OrdersByStatus` bucket for
`Paid` is at its capacity of 10000. -/
def c1StateB : C2C.State :=
  { orders := fun k => if k = [1] then some wOrder else none
    userOrders := fun _ => []
    institutionOrders := fun _ => []
    ordersByStatus := fun st =>
      if st = .Pending then [[1]] else if st = .Paid then List.replicate 10000 [9] else [] }

/-- The token state after account 0 creates buy-direction token `([1], [2])`. -/
def c4S1 : Token.State :=
  (Token.create_token ⟨64, 64, 64, 64⟩ 0 [1] [2] [10] [11] 5 1 10 Token.emptyState).2

/-- The token state after account 7 then buys 3 units of that token, which
records the pair in account 7's `UserTokens` bucket. -/
def c4S2 : Token.State :=
  (Token.trade_token ⟨64, 64, 64, 64⟩ 7 [1] [2] 3 c4S1).2

/-- The product state after account 0 creates product `([1], [2])` with
original price 9, current price 5 and stock 5. -/
def c5S1 : Product.State :=
  (Product.create_product ⟨64, 64, 64, 64, 64, 64, 64, 64, 64, 64⟩ 0 [1] [2] [10] [11] [12]
    [] 9 5 [] [] [] 5 1 0 0 Product.emptyState).2

/-! ## Theorems -/

@[simp] theorem fupd_same {α β : Type} [DecidableEq α] (f : α → β) (a : α) (b : β) :
    fupd f a b a = b := by
  simp [fupd]

@[simp] theorem fupd_other {α β : Type} [DecidableEq α] (f : α → β) (a : α) (b : β)
    (x : α) (h : x ≠ a) : fupd f a b x = f x := by
  simp [fupd, h]

theorem tryPush_eq_some {α : Type} {cap : Nat} {l l' : List α} {x : α}
    (h : tryPush cap l x = some l') : l' = l ++ [x] := by
  unfold tryPush at h
  split at h
  · exact (Option.some.injEq _ _ ▸ h).symm
  · cases h

@[simp] theorem mem_removeCode {α : Type} [DecidableEq α] {l : List α} {k x : α} :
    x ∈ removeCode l k ↔ x ∈ l ∧ x ≠ k := by
  simp [removeCode]

theorem nodup_removeCode {α : Type} [DecidableEq α] {l : List α} (k : α)
    (h : l.Nodup) : (removeCode l k).Nodup :=
  h.filter _

theorem satAdd32_le (a b : Nat) : satAdd32 a b ≤ u32Max := Nat.min_le_right _ _


namespace C2C

/-- Success characterization of `create_order`. -/
theorem create_order_ok {cfg : Config} {who : Nat} {oc mc ic : List Nat}
    {dir ta tot now : Nat} {s s' : State}
    (hs : create_order cfg who oc mc ic dir ta tot now s = (none, s')) :
    s.orders oc = none ∧
    ∃ d, decodeDirection dir = some d ∧
      s'.orders = fupd s.orders oc (some (builtOrder who oc mc ic d ta tot now)) ∧
      s'.userOrders = fupd s.userOrders mc (s.userOrders mc ++ [oc]) ∧
      s'.institutionOrders = fupd s.institutionOrders ic (s.institutionOrders ic ++ [oc]) ∧
      s'.ordersByStatus = fupd s.ordersByStatus .Pending (s.ordersByStatus .Pending ++ [oc]) := by
  simp only [create_order] at hs
  split at hs; · simp at hs
  split at hs; · simp at hs
  rename_i hdup
  split at hs; · simp at hs
  split at hs; · simp at hs
  split at hs; · simp at hs
  rename_i d hdir
  split at hs; · simp at hs
  split at hs; · simp at hs
  split at hs; · simp at hs
  rename_i ul hu
  split at hs; · simp at hs
  rename_i il hi
  split at hs; · simp at hs
  rename_i pl hp
  obtain rfl := tryPush_eq_some hu
  obtain rfl := tryPush_eq_some hi
  obtain rfl := tryPush_eq_some hp
  simp only [Prod.mk.injEq, true_and] at hs
  subst hs
  refine ⟨by simpa using hdup, d, hdir, rfl, rfl, rfl, rfl⟩

/-- Success characterization of `update_order_status`. -/
theorem update_order_status_ok {cfg : Config} {who : Nat} {oc : List Nat}
    {stc now : Nat} {s s' : State}
    (hs : update_order_status cfg who oc stc now s = (none, s')) :
    ∃ o t, s.orders oc = some o ∧ o.creator = who ∧ decodeStatus stc = some t ∧
      validate_status_transition o.status t = true ∧
      s'.orders = fupd s.orders oc (some { o with status := t, updated_time := now }) ∧
      s'.userOrders = s.userOrders ∧
      s'.institutionOrders = s.institutionOrders ∧
      s'.ordersByStatus =
        fupd (fupd s.ordersByStatus o.status (removeCode (s.ordersByStatus o.status) oc)) t
          ((fupd s.ordersByStatus o.status (removeCode (s.ordersByStatus o.status) oc)) t ++ [oc]) := by
  simp only [update_order_status, rmStatusBucket] at hs
  split at hs; · simp at hs
  split at hs; · simp at hs
  rename_i o ho
  split at hs; · simp at hs
  rename_i hcre
  split at hs; · simp at hs
  rename_i t hst
  split at hs; · simp at hs
  rename_i htr
  split at hs; · simp at hs
  rename_i nl hp
  obtain rfl := tryPush_eq_some hp
  simp only [Prod.mk.injEq, true_and] at hs
  subst hs
  exact ⟨o, t, ho, by simpa using hcre, hst, by simpa using htr, rfl, rfl, rfl, rfl⟩

/-- Success characterization of `cancel_order`. -/
theorem cancel_order_ok {cfg : Config} {who : Nat} {oc : List Nat}
    {now : Nat} {s s' : State}
    (hs : cancel_order cfg who oc now s = (none, s')) :
    ∃ o, s.orders oc = some o ∧ o.creator = who ∧
      (o.status = .Pending ∨ o.status = .Paid) ∧
      s'.orders = fupd s.orders oc (some { o with status := .Cancelled, updated_time := now }) ∧
      s'.userOrders = s.userOrders ∧
      s'.institutionOrders = s.institutionOrders ∧
      s'.ordersByStatus =
        fupd (fupd s.ordersByStatus o.status (removeCode (s.ordersByStatus o.status) oc)) .Cancelled
          ((fupd s.ordersByStatus o.status (removeCode (s.ordersByStatus o.status) oc)) .Cancelled ++ [oc]) := by
  simp only [cancel_order, rmStatusBucket] at hs
  split at hs; · simp at hs
  split at hs; · simp at hs
  rename_i o ho
  split at hs; · simp at hs
  rename_i hcre
  split at hs; · simp at hs
  rename_i hcan
  split at hs; · simp at hs
  rename_i nl hp
  obtain rfl := tryPush_eq_some hp
  simp only [Prod.mk.injEq, true_and] at hs
  subst hs
  exact ⟨o, ho, by simpa using hcre, or_iff_not_imp_left.mpr (by simpa using hcan), rfl, rfl, rfl, rfl⟩

/-- Success characterization of `complete_order`. -/
theorem complete_order_ok {cfg : Config} {who : Nat} {oc : List Nat}
    {now : Nat} {s s' : State}
    (hs : complete_order cfg who oc now s = (none, s')) :
    ∃ o, s.orders oc = some o ∧ o.creator = who ∧
      (o.status = .Delivered ∨ o.status = .Notarizing) ∧
      s'.orders = fupd s.orders oc (some { o with status := .Completed, updated_time := now }) ∧
      s'.userOrders = s.userOrders ∧
      s'.institutionOrders = s.institutionOrders ∧
      s'.ordersByStatus =
        fupd (fupd s.ordersByStatus o.status (removeCode (s.ordersByStatus o.status) oc)) .Completed
          ((fupd s.ordersByStatus o.status (removeCode (s.ordersByStatus o.status) oc)) .Completed ++ [oc]) := by
  simp only [complete_order, rmStatusBucket] at hs
  split at hs; · simp at hs
  split at hs; · simp at hs
  rename_i o ho
  split at hs; · simp at hs
  rename_i hcre
  split at hs; · simp at hs
  rename_i hcom
  split at hs; · simp at hs
  rename_i nl hp
  obtain rfl := tryPush_eq_some hp
  simp only [Prod.mk.injEq, true_and] at hs
  subst hs
  exact ⟨o, ho, by simpa using hcre, or_iff_not_imp_left.mpr (by simpa using hcom), rfl, rfl, rfl, rfl⟩

/-- Success characterization of `delete_order`. -/
theorem delete_order_ok {cfg : Config} {who : Nat} {oc : List Nat} {s s' : State}
    (hs : delete_order cfg who oc s = (none, s')) :
    ∃ o, s.orders oc = some o ∧ o.creator = who ∧
      s'.orders = fupd s.orders oc none ∧
      s'.userOrders = fupd s.userOrders o.member_code (removeCode (s.userOrders o.member_code) oc) ∧
      s'.institutionOrders = fupd s.institutionOrders o.institution_code (removeCode (s.institutionOrders o.institution_code) oc) ∧
      s'.ordersByStatus = fupd s.ordersByStatus o.status (removeCode (s.ordersByStatus o.status) oc) := by
  simp only [delete_order, rmStatusBucket] at hs
  split at hs; · simp at hs
  split at hs; · simp at hs
  rename_i o ho
  split at hs; · simp at hs
  rename_i hcre
  simp only [Prod.mk.injEq, true_and] at hs
  subst hs
  exact ⟨o, ho, by simpa using hcre, rfl, rfl, rfl, rfl⟩

theorem validate_status_transition_ne :
    ∀ f t, validate_status_transition f t = true → f ≠ t := by
  intro f t
  cases f <;> cases t <;> decide

theorem statusInv_empty : StatusInv emptyState := by
  constructor
  · intro k st
    simp [emptyState]
  · intro st
    simp [emptyState]

/-- In an invariant state, a key with a stored order sits exactly in its
status bucket. -/
theorem statusInv_mem_iff {s : State} (hinv : StatusInv s) {oc : List Nat} {o : Order}
    (ho : s.orders oc = some o) :
    ∀ st, oc ∈ s.ordersByStatus st ↔ o.status = st := by
  intro st
  rw [hinv.1 oc st]
  constructor
  · rintro ⟨o2, ho2, h2⟩
    rw [ho] at ho2
    cases ho2
    exact h2
  · intro h
    exact ⟨o, ho, h⟩

/-- A key with no stored order sits in no status bucket of an invariant state. -/
theorem statusInv_not_mem {s : State} (hinv : StatusInv s) {oc : List Nat}
    (ho : s.orders oc = none) : ∀ st, oc ∉ s.ordersByStatus st := by
  intro st hmem
  obtain ⟨o, hoo, -⟩ := (hinv.1 oc st).mp hmem
  rw [ho] at hoo
  cases hoo

/-- The common status-bucket move performed by `update_order_status`,
`cancel_order` and `complete_order` preserves the by-status invariant. -/
theorem statusInv_move {s s' : State} {oc : List Nat} {o o' : Order} {t : OrderStatus}
    (hinv : StatusInv s) (ho : s.orders oc = some o) (hne : o.status ≠ t)
    (ho' : o'.status = t)
    (horders : s'.orders = fupd s.orders oc (some o'))
    (hb : s'.ordersByStatus =
      fupd (fupd s.ordersByStatus o.status (removeCode (s.ordersByStatus o.status) oc)) t
        ((fupd s.ordersByStatus o.status (removeCode (s.ordersByStatus o.status) oc)) t ++ [oc])) :
    StatusInv s' := by
  have honly := statusInv_mem_iff hinv ho
  have hBt : (fupd s.ordersByStatus o.status (removeCode (s.ordersByStatus o.status) oc)) t
      = s.ordersByStatus t := fupd_other _ _ _ _ (fun h => hne h.symm)
  constructor
  · intro k st
    rw [hb, horders]
    by_cases hk : k = oc
    · subst hk
      by_cases hst : st = t
      · rw [hst, fupd_same, hBt]
        constructor
        · intro _
          refine ⟨o', ?_, ho'⟩
          rw [fupd_same]
        · intro _
          exact List.mem_append_right _ (List.mem_singleton.mpr rfl)
      · rw [fupd_other _ _ _ _ hst]
        constructor
        · intro hmem
          by_cases hso : st = o.status
          · rw [hso, fupd_same, mem_removeCode] at hmem
            exact absurd rfl hmem.2
          · rw [fupd_other _ _ _ _ hso] at hmem
            exact absurd ((honly st).mp hmem).symm hso
        · rintro ⟨o2, ho2, h2⟩
          rw [fupd_same] at ho2
          cases ho2
          exact absurd (h2.symm.trans ho') hst
    · rw [fupd_other _ _ _ _ hk]
      by_cases hst : st = t
      · rw [hst, fupd_same, hBt, List.mem_append, List.mem_singleton]
        constructor
        · rintro (hm | hm)
          · exact (hinv.1 k t).mp hm
          · exact absurd hm hk
        · intro hm
          exact Or.inl ((hinv.1 k t).mpr hm)
      · rw [fupd_other _ _ _ _ hst]
        by_cases hso : st = o.status
        · rw [hso, fupd_same, mem_removeCode]
          constructor
          · rintro ⟨hm, -⟩
            exact (hinv.1 k o.status).mp hm
          · intro hm
            exact ⟨(hinv.1 k o.status).mpr hm, hk⟩
        · rw [fupd_other _ _ _ _ hso]
          exact hinv.1 k st
  · intro st
    rw [hb]
    by_cases hst : st = t
    · rw [hst, fupd_same, hBt]
      refine List.Nodup.append (hinv.2 t) (List.nodup_singleton oc) ?_
      intro a ha ha2
      rw [List.mem_singleton] at ha2
      subst ha2
      exact hne ((honly t).mp ha)
    · rw [fupd_other _ _ _ _ hst]
      by_cases hso : st = o.status
      · rw [hso, fupd_same]
        exact nodup_removeCode _ (hinv.2 o.status)
      · rw [fupd_other _ _ _ _ hso]
        exact hinv.2 st

/-- `create_order` preserves the by-status invariant. -/
theorem create_preserves_statusInv {cfg : Config} {who : Nat} {oc mc ic : List Nat}
    {dir ta tot now : Nat} {s s' : State} (hinv : StatusInv s)
    (hs : create_order cfg who oc mc ic dir ta tot now s = (none, s')) :
    StatusInv s' := by
  obtain ⟨hnone, d, -, ho, -, -, hb⟩ := create_order_ok hs
  have hno := statusInv_not_mem hinv hnone
  constructor
  · intro k st
    rw [hb, ho]
    by_cases hk : k = oc
    · subst hk
      by_cases hst : st = OrderStatus.Pending
      · rw [hst, fupd_same]
        constructor
        · intro _
          refine ⟨builtOrder who k mc ic d ta tot now, ?_, rfl⟩
          rw [fupd_same]
        · intro _
          exact List.mem_append_right _ (List.mem_singleton.mpr rfl)
      · rw [fupd_other _ _ _ _ hst]
        constructor
        · intro hmem
          exact absurd hmem (hno st)
        · rintro ⟨o2, ho2, h2⟩
          rw [fupd_same] at ho2
          cases ho2
          exact absurd (h2.symm.trans rfl) hst
    · rw [fupd_other _ _ _ _ hk]
      by_cases hst : st = OrderStatus.Pending
      · rw [hst, fupd_same, List.mem_append, List.mem_singleton]
        constructor
        · rintro (hm | hm)
          · exact (hinv.1 k OrderStatus.Pending).mp hm
          · exact absurd hm hk
        · intro hm
          exact Or.inl ((hinv.1 k OrderStatus.Pending).mpr hm)
      · rw [fupd_other _ _ _ _ hst]
        exact hinv.1 k st
  · intro st
    rw [hb]
    by_cases hst : st = OrderStatus.Pending
    · rw [hst, fupd_same]
      refine List.Nodup.append (hinv.2 OrderStatus.Pending) (List.nodup_singleton oc) ?_
      intro a ha ha2
      rw [List.mem_singleton] at ha2
      subst ha2
      exact hno OrderStatus.Pending ha
    · rw [fupd_other _ _ _ _ hst]
      exact hinv.2 st

/-- `delete_order` preserves the by-status invariant. -/
theorem delete_preserves_statusInv {cfg : Config} {who : Nat} {oc : List Nat}
    {s s' : State} (hinv : StatusInv s)
    (hs : delete_order cfg who oc s = (none, s')) :
    StatusInv s' := by
  obtain ⟨o, ho, -, horders, -, -, hb⟩ := delete_order_ok hs
  have honly := statusInv_mem_iff hinv ho
  constructor
  · intro k st
    rw [hb, horders]
    by_cases hk : k = oc
    · subst hk
      constructor
      · intro hmem
        by_cases hso : st = o.status
        · rw [hso, fupd_same, mem_removeCode] at hmem
          exact absurd rfl hmem.2
        · rw [fupd_other _ _ _ _ hso] at hmem
          exact absurd ((honly st).mp hmem).symm hso
      · rintro ⟨o2, ho2, -⟩
        rw [fupd_same] at ho2
        cases ho2
    · rw [fupd_other _ _ _ _ hk]
      by_cases hso : st = o.status
      · rw [hso, fupd_same, mem_removeCode]
        constructor
        · rintro ⟨hm, -⟩
          exact (hinv.1 k o.status).mp hm
        · intro hm
          exact ⟨(hinv.1 k o.status).mpr hm, hk⟩
      · rw [fupd_other _ _ _ _ hso]
        exact hinv.1 k st
  · intro st
    rw [hb]
    by_cases hso : st = o.status
    · rw [hso, fupd_same]
      exact nodup_removeCode _ (hinv.2 o.status)
    · rw [fupd_other _ _ _ _ hso]
      exact hinv.2 st

/-- Every committed command preserves the by-status invariant. -/
theorem step_preserves_statusInv {cfg : Config} {c : Cmd} {s s' : State}
    (hinv : StatusInv s) (hs : step cfg c s = (none, s')) : StatusInv s' := by
  cases c with
  | create who oc mc ic dir ta tot now =>
    exact create_preserves_statusInv hinv hs
  | updateStatus who oc st now =>
    obtain ⟨o, t, ho, -, -, htr, horders, -, -, hb⟩ := update_order_status_ok hs
    exact statusInv_move hinv ho (validate_status_transition_ne _ _ htr) rfl horders hb
  | cancel who oc now =>
    obtain ⟨o, ho, -, hcan, horders, -, -, hb⟩ := cancel_order_ok hs
    have hne : o.status ≠ OrderStatus.Cancelled := by
      rcases hcan with h | h <;> simp [h]
    exact statusInv_move hinv ho hne rfl horders hb
  | delete who oc =>
    exact delete_preserves_statusInv hinv hs
  | complete who oc now =>
    obtain ⟨o, ho, -, hcom, horders, -, -, hb⟩ := complete_order_ok hs
    have hne : o.status ≠ OrderStatus.Completed := by
      rcases hcom with h | h <;> simp [h]
    exact statusInv_move hinv ho hne rfl horders hb

/-- The by-status invariant holds in every reachable state. -/
theorem reachable_statusInv {cfg : Config} {s : State} (h : Reachable cfg s) :
    StatusInv s := by
  induction h with
  | empty => exact statusInv_empty
  | step hr hs ih => exact step_preserves_statusInv ih hs


/-- Any outcome of `create_order` leaves every already-bound key unchanged. -/
theorem create_order_preserves_binding {cfg : Config} {who : Nat}
    {oc mc ic : List Nat} {dir ta tot now : Nat} {s : State} {k : List Nat}
    (hk : (s.orders k).isSome) :
    ((create_order cfg who oc mc ic dir ta tot now s).2).orders k = s.orders k := by
  simp only [create_order]
  split; · rfl
  split; · rfl
  rename_i hdup
  have hko : k ≠ oc := fun h => hdup (h ▸ hk)
  split; · rfl
  split; · rfl
  split; · rfl
  split; · rfl
  split; · rfl
  split
  · exact fupd_other _ _ _ _ hko
  split
  · exact fupd_other _ _ _ _ hko
  split
  · exact fupd_other _ _ _ _ hko
  · exact fupd_other _ _ _ _ hko

/-- A committed sequence of creates leaves every already-bound key unchanged. -/
theorem runCreates_preserves_binding {cfg : Config} {l : List CreateReq}
    {s sf : State} {k : List Nat}
    (hrun : runCreates cfg l s = some sf) (hk : (s.orders k).isSome) :
    sf.orders k = s.orders k := by
  induction l generalizing s with
  | nil =>
    simp only [runCreates] at hrun
    cases hrun
    rfl
  | cons r rest ih =>
    unfold runCreates at hrun
    cases hrc : runCreate cfg r s with
    | mk e s1 =>
      rw [hrc] at hrun
      cases e with
      | some e => simp at hrun
      | none =>
        have h2 : (runCreate cfg r s).2 = s1 := by rw [hrc]
        have h1 : s1.orders k = s.orders k := by
          rw [← h2]
          exact create_order_preserves_binding hk
        have hk1 : (s1.orders k).isSome := by rw [h1]; exact hk
        rw [ih hrun hk1, h1]

/-- After a committed sequence of creates, each request's key holds exactly
its freshly built record. -/
theorem runCreates_lookup {cfg : Config} {l : List CreateReq} {s0 sf : State}
    (hrun : runCreates cfg l s0 = some sf) :
    ∀ r ∈ l, ∃ d, decodeDirection r.dir = some d ∧
      sf.orders r.oc = some (builtOrder r.who r.oc r.mc r.ic d r.ta r.tot r.now) := by
  induction l generalizing s0 with
  | nil =>
    intro r hr
    cases hr
  | cons q rest ih =>
    intro r hr
    unfold runCreates at hrun
    cases hrc : runCreate cfg q s0 with
    | mk e s1 =>
      rw [hrc] at hrun
      cases e with
      | some e => simp at hrun
      | none =>
        rcases List.mem_cons.mp hr with rfl | hr2
        · obtain ⟨hnone, d, hdir, ho, -, -, -⟩ :=
            create_order_ok (show create_order cfg r.who r.oc r.mc r.ic r.dir r.ta r.tot r.now s0 = (none, s1) from hrc)
          refine ⟨d, hdir, ?_⟩
          have hbind : s1.orders r.oc = some (builtOrder r.who r.oc r.mc r.ic d r.ta r.tot r.now) := by
            rw [ho, fupd_same]
          have hpres := runCreates_preserves_binding hrun (k := r.oc) (by rw [hbind]; rfl)
          rw [hpres, hbind]
        · exact ih hrun r hr2

/-- Error-path characterization of `create_order` when the `UserOrders`
bucket is full: the call fails with `UserOrderListFull`, yet the primary
record has already been inserted. -/
theorem create_order_userFull (cfg : Config) (who : Nat) (oc mc ic : List Nat)
    (dir ta tot now : Nat) (s : State) (d : OrderDirection)
    (hlen : oc.length ≤ cfg.maxOrderCodeLength) (hnone : s.orders oc = none)
    (hta : ta ≠ 0) (htot : ta ≤ tot) (hdir : decodeDirection dir = some d)
    (hmc : mc.length ≤ cfg.maxMemberCodeLength)
    (hic : ic.length ≤ cfg.maxInstitutionIdLength)
    (hfull : ¬ (s.userOrders mc).length < 1000) :
    create_order cfg who oc mc ic dir ta tot now s =
      (some Err.UserOrderListFull,
        { s with orders := fupd s.orders oc (some (builtOrder who oc mc ic d ta tot now)) }) := by
  simp [create_order, Nat.not_lt.mpr hlen, hnone, hta, Nat.not_lt.mpr htot, hdir,
    Nat.not_lt.mpr hmc, Nat.not_lt.mpr hic, tryPush, hfull, builtOrder]

/-- Error-path characterization of `update_order_status` when the target
by-status bucket is full: the call fails with `StatusOrderListFull`, yet the
key has already been removed from the old by-status bucket (the record itself
is not written back). -/
theorem update_order_status_statusFull (cfg : Config) (who : Nat) (oc : List Nat)
    (stc now : Nat) (s : State) (o : Order) (t : OrderStatus)
    (hlen : oc.length ≤ cfg.maxOrderCodeLength) (ho : s.orders oc = some o)
    (hcre : o.creator = who) (hst : decodeStatus stc = some t)
    (htr : validate_status_transition o.status t = true)
    (hfull : ¬ (s.ordersByStatus t).length < 10000) :
    update_order_status cfg who oc stc now s
      = (some Err.StatusOrderListFull, rmStatusBucket s o.status oc) := by
  have hne : t ≠ o.status := fun h => validate_status_transition_ne _ _ htr h.symm
  simp [update_order_status, Nat.not_lt.mpr hlen, ho, hcre, hst, htr, tryPush,
    rmStatusBucket, fupd_other _ _ _ _ hne, hfull]

/-- A create on an already-used key fails with `OrderCodeAlreadyExists` and
changes nothing. -/
theorem create_order_duplicate {cfg : Config} {who : Nat} {oc mc ic : List Nat}
    {dir ta tot now : Nat} {s : State} {r : Order}
    (hlen : oc.length ≤ cfg.maxOrderCodeLength) (ho : s.orders oc = some r) :
    create_order cfg who oc mc ic dir ta tot now s = (some Err.OrderCodeAlreadyExists, s) := by
  simp [create_order, Nat.not_lt.mpr hlen, ho]

end C2C

namespace Ord

/-- The item-conversion accumulators compute the saturating left folds over
the raw item tuples. -/
theorem convItems_totals :
    ∀ (items : List (List Nat × Nat × Nat × Nat)) (ta tw : Nat)
      {l : List OrderItem} {ta2 tw2 : Nat},
    convItems items ta tw = some (l, ta2, tw2) →
    ta2 = items.foldl (fun a it => satAdd32 a (satMul32 it.2.2.1 it.2.1)) ta ∧
    tw2 = items.foldl (fun a it => satAdd32 a (satMul32 it.2.2.2 it.2.1)) tw := by
  intro items
  induction items with
  | nil =>
    intro ta tw l ta2 tw2 h
    simp only [convItems, Option.some.injEq, Prod.mk.injEq] at h
    exact ⟨h.2.1.symm, h.2.2.symm⟩
  | cons x rest ih =>
    obtain ⟨pc, q, ppu, w⟩ := x
    intro ta tw l ta2 tw2 h
    simp only [convItems] at h
    split at h
    · cases h
    split at h
    · cases h
    rename_i l2 ta3 tw3 heq
    simp only [Option.some.injEq, Prod.mk.injEq] at h
    obtain ⟨-, h2, h3⟩ := h
    obtain ⟨ih1, ih2⟩ := ih _ _ heq
    subst h2
    subst h3
    simp only [List.foldl_cons]
    exact ⟨ih1, ih2⟩

/-- A saturating left fold over a nonempty list is capped at `u32Max`. -/
theorem foldl_sat_le {α : Type} (g : α → Nat) :
    ∀ (items : List α) (a : Nat), items ≠ [] →
      items.foldl (fun acc it => satAdd32 acc (g it)) a ≤ u32Max := by
  intro items
  induction items with
  | nil =>
    intro a hne
    cases hne rfl
  | cons x rest ih =>
    intro a hne
    cases rest with
    | nil => simpa using satAdd32_le a (g x)
    | cons y t =>
      rw [List.foldl_cons]
      exact ih _ (by simp)

/-- Success characterization of the plain `create_order`. -/
theorem create_order_plain_ok {cfg : Config} {who : Nat} {oc mc ic : List Nat}
    {freight : Nat} {phone email address : Option (List Nat)}
    {items : List (List Nat × Nat × Nat × Nat)} {now : Nat} {s s' : State}
    (hs : create_order cfg who oc mc ic freight phone email address items now s = (none, s')) :
    s.orders oc = none ∧ items ≠ [] ∧
    ∃ ph em ad oitems ta tw,
      convOpt 32 phone = some ph ∧ convOpt 128 email = some em ∧
      convOpt 512 address = some ad ∧
      convItems items 0 0 = some (oitems, ta, tw) ∧
      s'.orders = fupd s.orders oc (some
        { order_code := oc
          member_code := mc
          institution_code := ic
          status := .Pending
          created_time := now
          updated_time := now
          total_amount := satAdd32 ta freight
          total_weight := tw
          freight := freight
          contact_information := { phone := ph, email := em, address := ad }
          items := oitems
          express_company := []
          express_number := []
          creator := who }) ∧
      s'.userOrders = fupd s.userOrders mc (s.userOrders mc ++ [oc]) ∧
      s'.institutionOrders = fupd s.institutionOrders ic (s.institutionOrders ic ++ [oc]) := by
  simp only [create_order] at hs
  split at hs; · simp at hs
  split at hs; · simp at hs
  rename_i hdup
  split at hs; · simp at hs
  rename_i hemp
  split at hs; · simp at hs
  split at hs; · simp at hs
  split at hs; · simp at hs
  rename_i ph hph
  split at hs; · simp at hs
  rename_i em hem
  split at hs; · simp at hs
  rename_i ad had
  split at hs; · simp at hs
  rename_i oitems ta tw heq
  split at hs; · simp at hs
  split at hs; · simp at hs
  rename_i ul hu
  split at hs; · simp at hs
  rename_i il hi
  obtain rfl := tryPush_eq_some hu
  obtain rfl := tryPush_eq_some hi
  simp only [Prod.mk.injEq, true_and] at hs
  subst hs
  refine ⟨by simpa using hdup, by simpa using hemp, ph, em, ad, oitems, ta, tw,
    hph, hem, had, heq, rfl, rfl, rfl⟩

/-- A plain-order create on an already-used key fails with
`OrderCodeAlreadyExists` and changes nothing. -/
theorem create_order_plain_duplicate {cfg : Config} {who : Nat} {oc mc ic : List Nat}
    {freight : Nat} {phone email address : Option (List Nat)}
    {items : List (List Nat × Nat × Nat × Nat)} {now : Nat} {s : State} {r : Order}
    (hlen : oc.length ≤ cfg.maxOrderCodeLength) (ho : s.orders oc = some r) :
    create_order cfg who oc mc ic freight phone email address items now s
      = (some Err.OrderCodeAlreadyExists, s) := by
  simp [create_order, Nat.not_lt.mpr hlen, ho]

/-- A plain `create_order`, whatever its outcome, leaves every already-bound
order key unchanged. -/
theorem create_order_plain_preserves_binding {cfg : Config} {who : Nat}
    {oc mc ic : List Nat} {freight : Nat} {phone email address : Option (List Nat)}
    {items : List (List Nat × Nat × Nat × Nat)} {now : Nat} {s : State} {k : List Nat}
    (hk : (s.orders k).isSome) :
    ((create_order cfg who oc mc ic freight phone email address items now s).2).orders k = s.orders k := by
  simp only [create_order]
  split; · rfl
  split; · rfl
  rename_i hdup
  have hko : k ≠ oc := fun h => hdup (h ▸ hk)
  split; · rfl
  split; · rfl
  split; · rfl
  split; · rfl
  split; · rfl
  split; · rfl
  split; · rfl
  split; · rfl
  split
  · exact fupd_other _ _ _ _ hko
  split
  · exact fupd_other _ _ _ _ hko
  · exact fupd_other _ _ _ _ hko

/-- A committed sequence of plain creates leaves every already-bound key
unchanged. -/
theorem runCreates_plain_preserves_binding {cfg : Config} {l : List CreateReq}
    {s sf : State} {k : List Nat}
    (hrun : runCreates cfg l s = some sf) (hk : (s.orders k).isSome) :
    sf.orders k = s.orders k := by
  induction l generalizing s with
  | nil =>
    simp only [runCreates] at hrun
    cases hrun
    rfl
  | cons r rest ih =>
    unfold runCreates at hrun
    cases hrc : runCreate cfg r s with
    | mk e s1 =>
      rw [hrc] at hrun
      cases e with
      | some e => simp at hrun
      | none =>
        have h2 : (runCreate cfg r s).2 = s1 := by rw [hrc]
        have h1 : s1.orders k = s.orders k := by
          rw [← h2]
          exact create_order_plain_preserves_binding hk
        have hk1 : (s1.orders k).isSome := by rw [h1]; exact hk
        rw [ih hrun hk1, h1]

/-- After a committed sequence of plain creates, each request's key holds
exactly its freshly built record, including the converted contact fields,
the converted items and the saturating totals. -/
theorem runCreates_plain_lookup {cfg : Config} {l : List CreateReq} {s0 sf : State}
    (hrun : runCreates cfg l s0 = some sf) :
    ∀ r ∈ l, ∃ ph em ad oitems ta tw,
      convOpt 32 r.phone = some ph ∧ convOpt 128 r.email = some em ∧
      convOpt 512 r.address = some ad ∧
      convItems r.items 0 0 = some (oitems, ta, tw) ∧
      sf.orders r.oc = some (builtOrder r.who r.oc r.mc r.ic r.freight ph em ad oitems ta tw r.now) := by
  induction l generalizing s0 with
  | nil =>
    intro r hr
    cases hr
  | cons q rest ih =>
    intro r hr
    unfold runCreates at hrun
    cases hrc : runCreate cfg q s0 with
    | mk e s1 =>
      rw [hrc] at hrun
      cases e with
      | some e => simp at hrun
      | none =>
        rcases List.mem_cons.mp hr with rfl | hr2
        · obtain ⟨-, -, ph, em, ad, oitems, ta, tw, hph, hem, had, hit, ho, -, -⟩ :=
            create_order_plain_ok (show create_order cfg r.who r.oc r.mc r.ic r.freight r.phone r.email r.address r.items r.now s0 = (none, s1) from hrc)
          refine ⟨ph, em, ad, oitems, ta, tw, hph, hem, had, hit, ?_⟩
          have hbind : s1.orders r.oc
              = some (builtOrder r.who r.oc r.mc r.ic r.freight ph em ad oitems ta tw r.now) := by
            rw [ho, fupd_same]
            rfl
          have hpres := runCreates_plain_preserves_binding hrun (k := r.oc) (by rw [hbind]; rfl)
          rw [hpres, hbind]
        · exact ih hrun r hr2

end Ord

namespace Token

/-- Stage 4 of the token update stores exactly the decoded direction. -/
theorem tokenUpd4_ok_eq {t t2 : TokenInfo} {dirc : Option Nat}
    (h : tokenUpd4 t dirc = .ok t2) :
    t2 = { t with token_trade_direction := (dirc.bind decodeDirection).getD t.token_trade_direction } := by
  cases dirc with
  | none =>
    simp only [tokenUpd4, Except.ok.injEq] at h
    subst h
    rfl
  | some d =>
    simp only [tokenUpd4] at h
    split at h
    · cases h
    · rename_i dd hdd
      simp only [Except.ok.injEq] at h
      subst h
      have h2 : ((some d).bind decodeDirection).getD t.token_trade_direction = dd := by
        rw [show (some d).bind decodeDirection = decodeDirection d from rfl, hdd]
        rfl
      rw [h2]

/-- Stage 3 of the token update applies exactly the optional price and
direction. -/
theorem tokenUpd3_ok_eq {t t2 : TokenInfo} {pr : Option Nat} {dirc : Option Nat}
    (h : tokenUpd3 t pr dirc = .ok t2) :
    t2 = { t with
      price := pr.getD t.price,
      token_trade_direction := (dirc.bind decodeDirection).getD t.token_trade_direction } := by
  cases pr with
  | none => exact tokenUpd4_ok_eq h
  | some p0 =>
    simp only [tokenUpd3] at h
    split at h
    · cases h
    · exact tokenUpd4_ok_eq h

/-- A supplied price accepted by stage 3 is positive. -/
theorem tokenUpd3_ok_price_pos {t t2 : TokenInfo} {pr : Option Nat} {dirc : Option Nat}
    (h : tokenUpd3 t pr dirc = .ok t2) : ∀ v, pr = some v → v ≠ 0 := by
  intro v hv
  subst hv
  simp only [tokenUpd3] at h
  split at h
  · cases h
  · rename_i hp0
    exact hp0

/-- Stage 2 of the token update applies exactly the optional category, price
and direction. -/
theorem tokenUpd2_ok_eq {cfg : Config} {t t2 : TokenInfo} {cat : Option (List Nat)}
    {pr : Option Nat} {dirc : Option Nat}
    (h : tokenUpd2 cfg t cat pr dirc = .ok t2) :
    t2 = { t with
      category := cat.getD t.category,
      price := pr.getD t.price,
      token_trade_direction := (dirc.bind decodeDirection).getD t.token_trade_direction } := by
  cases cat with
  | none => exact tokenUpd3_ok_eq h
  | some c =>
    simp only [tokenUpd2] at h
    split at h
    · cases h
    · exact tokenUpd3_ok_eq h

/-- A supplied price accepted by stage 2 is positive. -/
theorem tokenUpd2_ok_price_pos {cfg : Config} {t t2 : TokenInfo} {cat : Option (List Nat)}
    {pr : Option Nat} {dirc : Option Nat}
    (h : tokenUpd2 cfg t cat pr dirc = .ok t2) : ∀ v, pr = some v → v ≠ 0 := by
  cases cat with
  | none => exact tokenUpd3_ok_price_pos h
  | some c =>
    simp only [tokenUpd2] at h
    split at h
    · cases h
    · exact tokenUpd3_ok_price_pos h

/-- A successful token-update closure stores exactly the supplied fields. -/
theorem applyTokenUpdates_ok_eq {cfg : Config} {t t2 : TokenInfo}
    {nm cat : Option (List Nat)} {pr : Option Nat} {dirc : Option Nat}
    (h : applyTokenUpdates cfg t nm cat pr dirc = .ok t2) :
    t2 = expectedToken t nm cat pr dirc := by
  cases nm with
  | none => exact tokenUpd2_ok_eq h
  | some v =>
    simp only [applyTokenUpdates] at h
    split at h
    · cases h
    · exact tokenUpd2_ok_eq h

/-- A supplied price accepted by the token-update closure is positive. -/
theorem applyTokenUpdates_ok_price_pos {cfg : Config} {t t2 : TokenInfo}
    {nm cat : Option (List Nat)} {pr : Option Nat} {dirc : Option Nat}
    (h : applyTokenUpdates cfg t nm cat pr dirc = .ok t2) : ∀ v, pr = some v → v ≠ 0 := by
  cases nm with
  | none => exact tokenUpd2_ok_price_pos h
  | some v =>
    simp only [applyTokenUpdates] at h
    split at h
    · cases h
    · exact tokenUpd2_ok_price_pos h

/-- Success characterization of `update_token_info`. -/
theorem update_token_info_ok {cfg : Config} {who : Nat} {tc ic : List Nat}
    {nm cat : Option (List Nat)} {pr : Option Nat} {dirc : Option Nat}
    {s s' : State}
    (hs : update_token_info cfg who tc ic nm cat pr dirc s = (none, s')) :
    ∃ t t2, s.tokens (tc, ic) = some t ∧ t.creator = who ∧
      applyTokenUpdates cfg t nm cat pr dirc = .ok t2 ∧
      s'.tokens = fupd s.tokens (tc, ic) (some t2) ∧
      s'.institutionTokens = s.institutionTokens ∧
      s'.userTokens = s.userTokens := by
  simp only [update_token_info] at hs
  split at hs; · simp at hs
  split at hs; · simp at hs
  split at hs; · simp at hs
  rename_i t ht
  split at hs; · simp at hs
  rename_i hcre
  split at hs; · simp at hs
  rename_i t2 happ
  simp only [Prod.mk.injEq, true_and] at hs
  subst hs
  exact ⟨t, t2, ht, by simpa using hcre, happ, rfl, rfl, rfl⟩

/-- Success characterization of `delete_token`. -/
theorem delete_token_ok {cfg : Config} {who : Nat} {tc ic : List Nat}
    {s s' : State} (hs : delete_token cfg who tc ic s = (none, s')) :
    ∃ t, s.tokens (tc, ic) = some t ∧ t.creator = who ∧
      s'.tokens = fupd s.tokens (tc, ic) none ∧
      s'.institutionTokens = fupd s.institutionTokens ic (removeCode (s.institutionTokens ic) tc) ∧
      s'.userTokens = fupd s.userTokens who
        ((s.userTokens who).filter (fun p => decide (p.1 ≠ tc ∨ p.2 ≠ ic))) := by
  simp only [delete_token] at hs
  split at hs; · simp at hs
  split at hs; · simp at hs
  split at hs; · simp at hs
  rename_i t ht
  split at hs; · simp at hs
  rename_i hcre
  simp only [Prod.mk.injEq, true_and] at hs
  subst hs
  exact ⟨t, ht, by simpa using hcre, rfl, rfl, rfl⟩

end Token

namespace Product

/-- Updating one binding with a price-valid record preserves I5. -/
theorem priceInvMap_fupd_some {m : List Nat × List Nat → Option ProductInfo}
    {key : List Nat × List Nat} {info : ProductInfo}
    (h : PriceInvMap m) (hle : info.current_price ≤ info.original_price) :
    PriceInvMap (fupd m key (some info)) := by
  intro k p hk
  by_cases hkk : k = key
  · subst hkk
    rw [fupd_same] at hk
    cases hk
    exact hle
  · rw [fupd_other _ _ _ _ hkk] at hk
    exact h k p hk

/-- Removing one binding preserves I5. -/
theorem priceInvMap_fupd_none {m : List Nat × List Nat → Option ProductInfo}
    {key : List Nat × List Nat} (h : PriceInvMap m) :
    PriceInvMap (fupd m key none) := by
  intro k p hk
  by_cases hkk : k = key
  · subst hkk
    rw [fupd_same] at hk
    cases hk
  · rw [fupd_other _ _ _ _ hkk] at hk
    exact h k p hk

/-- Stage 7 does not touch the price fields. -/
theorem productUpd7_prices (p : ProductInfo) (w pr : Option Nat) :
    (productUpd7 p w pr).current_price = p.current_price ∧
    (productUpd7 p w pr).original_price = p.original_price := by
  cases w <;> cases pr <;> simp [productUpd7]

/-- Stage 6 does not touch the price fields. -/
theorem productUpd6_ok_prices {cfg : Config} {p p2 : ProductInfo}
    {mi : Option (List Nat)} {w pr : Option Nat}
    (h : productUpd6 cfg p mi w pr = .ok p2) :
    p2.current_price = p.current_price ∧ p2.original_price = p.original_price := by
  cases mi with
  | none =>
    simp only [productUpd6, Except.ok.injEq] at h
    subst h
    exact productUpd7_prices p w pr
  | some img =>
    simp only [productUpd6] at h
    split at h
    · cases h
    · simp only [Except.ok.injEq] at h
      subst h
      exact productUpd7_prices _ w pr

/-- Stage 5 does not touch the price fields. -/
theorem productUpd5_ok_prices {cfg : Config} {p p2 : ProductInfo}
    {d mi : Option (List Nat)} {w pr : Option Nat}
    (h : productUpd5 cfg p d mi w pr = .ok p2) :
    p2.current_price = p.current_price ∧ p2.original_price = p.original_price := by
  cases d with
  | none => exact productUpd6_ok_prices h
  | some dd =>
    simp only [productUpd5] at h
    split at h
    · cases h
    · obtain ⟨h1, h2⟩ := productUpd6_ok_prices h
      exact ⟨h1, h2⟩

/-- A stage-4 success implies the price invariant on the result. -/
theorem productUpd4_ok_le {cfg : Config} {p p2 : ProductInfo}
    {op cp : Option Nat} {d mi : Option (List Nat)} {w pr : Option Nat}
    (h : productUpd4 cfg p op cp d mi w pr = .ok p2) :
    p2.current_price ≤ p2.original_price := by
  simp only [productUpd4] at h
  split at h
  · cases h
  · rename_i hok
    obtain ⟨h1, h2⟩ := productUpd5_ok_prices h
    rw [h1, h2]
    exact Nat.le_of_not_lt hok

/-- A stage-3 success implies the price invariant on the result. -/
theorem productUpd3_ok_le {cfg : Config} {p p2 : ProductInfo}
    {br : Option (List Nat)} {op cp : Option Nat} {d mi : Option (List Nat)}
    {w pr : Option Nat}
    (h : productUpd3 cfg p br op cp d mi w pr = .ok p2) :
    p2.current_price ≤ p2.original_price := by
  cases br with
  | none => exact productUpd4_ok_le h
  | some b =>
    simp only [productUpd3] at h
    split at h
    · cases h
    · exact productUpd4_ok_le h

/-- A stage-2 success implies the price invariant on the result. -/
theorem productUpd2_ok_le {cfg : Config} {p p2 : ProductInfo}
    {cat br : Option (List Nat)} {op cp : Option Nat} {d mi : Option (List Nat)}
    {w pr : Option Nat}
    (h : productUpd2 cfg p cat br op cp d mi w pr = .ok p2) :
    p2.current_price ≤ p2.original_price := by
  cases cat with
  | none => exact productUpd3_ok_le h
  | some c =>
    simp only [productUpd2] at h
    split at h
    · cases h
    · exact productUpd3_ok_le h

/-- A successful field update yields a record satisfying the price invariant. -/
theorem applyProductUpdates_ok_le {cfg : Config} {p p2 : ProductInfo}
    {pn cat br : Option (List Nat)} {op cp : Option Nat} {d mi : Option (List Nat)}
    {w pr : Option Nat}
    (h : applyProductUpdates cfg p pn cat br op cp d mi w pr = .ok p2) :
    p2.current_price ≤ p2.original_price := by
  cases pn with
  | none => exact productUpd2_ok_le h
  | some nm =>
    simp only [applyProductUpdates] at h
    split at h
    · cases h
    · exact productUpd2_ok_le h

/-- Stage 4 fails with `InvalidPrice` whenever the applied prices violate the
invariant. -/
theorem productUpd4_price_error {cfg : Config} {p : ProductInfo}
    {op cp : Option Nat} {d mi : Option (List Nat)} {w pr : Option Nat}
    (hbad : op.getD p.original_price < cp.getD p.current_price) :
    productUpd4 cfg p op cp d mi w pr = .error .InvalidPrice := by
  cases op <;> cases cp <;>
    (simp only [productUpd4]
     rw [if_pos]
     exact hbad)

/-- Stage 3 fails with `InvalidPrice` whenever the applied prices violate the
invariant (and the brand, if supplied, is within bounds). -/
theorem productUpd3_price_error {cfg : Config} {p : ProductInfo}
    {br : Option (List Nat)} {op cp : Option Nat} {d mi : Option (List Nat)}
    {w pr : Option Nat}
    (hbr : ∀ v, br = some v → v.length ≤ cfg.maxBrandLength)
    (hbad : op.getD p.original_price < cp.getD p.current_price) :
    productUpd3 cfg p br op cp d mi w pr = .error .InvalidPrice := by
  cases br with
  | none => exact productUpd4_price_error hbad
  | some b =>
    simp only [productUpd3]
    rw [if_neg (Nat.not_lt.mpr (hbr b rfl))]
    exact productUpd4_price_error hbad

/-- Stage 2 fails with `InvalidPrice` whenever the applied prices violate the
invariant (supplied earlier fields being within bounds). -/
theorem productUpd2_price_error {cfg : Config} {p : ProductInfo}
    {cat br : Option (List Nat)} {op cp : Option Nat} {d mi : Option (List Nat)}
    {w pr : Option Nat}
    (hcat : ∀ v, cat = some v → v.length ≤ cfg.maxCategoryLength)
    (hbr : ∀ v, br = some v → v.length ≤ cfg.maxBrandLength)
    (hbad : op.getD p.original_price < cp.getD p.current_price) :
    productUpd2 cfg p cat br op cp d mi w pr = .error .InvalidPrice := by
  cases cat with
  | none => exact productUpd3_price_error hbr hbad
  | some c =>
    simp only [productUpd2]
    rw [if_neg (Nat.not_lt.mpr (hcat c rfl))]
    exact productUpd3_price_error hbr hbad

/-- The update closure fails with `InvalidPrice` whenever the applied prices
violate the invariant (supplied earlier fields being within bounds). -/
theorem applyProductUpdates_price_error {cfg : Config} {p : ProductInfo}
    {pn cat br : Option (List Nat)} {op cp : Option Nat} {d mi : Option (List Nat)}
    {w pr : Option Nat}
    (hpn : ∀ v, pn = some v → v.length ≤ cfg.maxNameLength)
    (hcat : ∀ v, cat = some v → v.length ≤ cfg.maxCategoryLength)
    (hbr : ∀ v, br = some v → v.length ≤ cfg.maxBrandLength)
    (hbad : op.getD p.original_price < cp.getD p.current_price) :
    applyProductUpdates cfg p pn cat br op cp d mi w pr = .error .InvalidPrice := by
  cases pn with
  | none => exact productUpd2_price_error hcat hbr hbad
  | some nm =>
    simp only [applyProductUpdates]
    rw [if_neg (Nat.not_lt.mpr (hpn nm rfl))]
    exact productUpd2_price_error hcat hbr hbad

/-- The commit tail preserves I5 when the inserted record is price-valid. -/
theorem create_product_store_priceInv {pc ic : List Nat} {info : ProductInfo}
    {s s' : State} {e : Option Err} (hinv : PriceInv s)
    (hle : info.current_price ≤ info.original_price)
    (hs : create_product_store pc ic info s = (e, s')) : PriceInv s' := by
  simp only [create_product_store] at hs
  split at hs
  · cases hs
    exact priceInvMap_fupd_some hinv hle
  · cases hs
    exact priceInvMap_fupd_some hinv hle

/-- The image stage preserves I5 when the prices are valid. -/
theorem create_product_images_priceInv {cfg : Config} {who : Nat}
    {pc ic pn cat br : List Nat} {groups : List (List Nat)} {op cp : Nat}
    {desc mi : List Nat} {dimgs : List (List Nat)} {stock w profit now : Nat}
    {s s' : State} {e : Option Err} (hinv : PriceInv s) (hle : cp ≤ op)
    (hs : create_product_images cfg who pc ic pn cat br groups op cp desc mi dimgs stock w profit now s = (e, s')) :
    PriceInv s' := by
  simp only [create_product_images] at hs
  split at hs; · cases hs; exact hinv
  split at hs; · cases hs; exact hinv
  split at hs; · cases hs; exact hinv
  split at hs; · cases hs; exact hinv
  exact create_product_store_priceInv hinv hle hs

/-- The group stage preserves I5 when the prices are valid. -/
theorem create_product_groups_priceInv {cfg : Config} {who : Nat}
    {pc ic pn cat br : List Nat} {groups : List (List Nat)} {op cp : Nat}
    {desc mi : List Nat} {dimgs : List (List Nat)} {stock w profit now : Nat}
    {s s' : State} {e : Option Err} (hinv : PriceInv s) (hle : cp ≤ op)
    (hs : create_product_groups cfg who pc ic pn cat br groups op cp desc mi dimgs stock w profit now s = (e, s')) :
    PriceInv s' := by
  simp only [create_product_groups] at hs
  split at hs; · cases hs; exact hinv
  split at hs; · cases hs; exact hinv
  exact create_product_images_priceInv hinv hle hs

/-- `create_product` preserves I5 on any outcome: the record is only inserted
after the `current_price ≤ original_price` check. -/
theorem create_product_priceInv {cfg : Config} {who : Nat}
    {pc ic pn cat br : List Nat} {groups : List (List Nat)} {op cp : Nat}
    {desc mi : List Nat} {dimgs : List (List Nat)} {stock w profit now : Nat}
    {s s' : State} {e : Option Err} (hinv : PriceInv s)
    (hs : create_product cfg who pc ic pn cat br groups op cp desc mi dimgs stock w profit now s = (e, s')) :
    PriceInv s' := by
  simp only [create_product] at hs
  split at hs; · cases hs; exact hinv
  split at hs; · cases hs; exact hinv
  split at hs; · cases hs; exact hinv
  split at hs; · cases hs; exact hinv
  rename_i hpr
  split at hs; · cases hs; exact hinv
  split at hs; · cases hs; exact hinv
  split at hs; · cases hs; exact hinv
  exact create_product_groups_priceInv hinv (Nat.le_of_not_lt hpr) hs

/-- `update_product_info` preserves I5 on any outcome: a successful closure
re-validates the prices, a failing one persists nothing. -/
theorem update_product_info_priceInv {cfg : Config} {who : Nat}
    {pc ic : List Nat} {pn cat br : Option (List Nat)} {op cp : Option Nat}
    {desc mi : Option (List Nat)} {w profit : Option Nat} {s : State}
    (hinv : PriceInv s) :
    PriceInv (update_product_info cfg who pc ic pn cat br op cp desc mi w profit s).2 := by
  simp only [update_product_info]
  split; · exact hinv
  split; · exact hinv
  split; · exact hinv
  split; · exact hinv
  split
  · exact hinv
  · rename_i p2 happ
    exact priceInvMap_fupd_some hinv (applyProductUpdates_ok_le happ)

/-- `update_product_status` preserves I5 on any outcome. -/
theorem update_product_status_priceInv {cfg : Config} {who : Nat}
    {pc ic : List Nat} {st : Nat} {s : State} (hinv : PriceInv s) :
    PriceInv (update_product_status cfg who pc ic st s).2 := by
  simp only [update_product_status]
  split; · exact hinv
  split; · exact hinv
  split; · exact hinv
  rename_i p hp
  split; · exact hinv
  split; · exact hinv
  exact priceInvMap_fupd_some hinv (hinv (pc, ic) p hp)

/-- `update_stock` preserves I5 on any outcome. -/
theorem update_stock_priceInv {cfg : Config} {who : Nat}
    {pc ic : List Nat} {n : Nat} {s : State} (hinv : PriceInv s) :
    PriceInv (update_stock cfg who pc ic n s).2 := by
  simp only [update_stock]
  split; · exact hinv
  split; · exact hinv
  split; · exact hinv
  rename_i p hp
  split; · exact hinv
  exact priceInvMap_fupd_some hinv (hinv (pc, ic) p hp)

/-- `delete_product` preserves I5 on any outcome. -/
theorem delete_product_priceInv {cfg : Config} {who : Nat}
    {pc ic : List Nat} {s : State} (hinv : PriceInv s) :
    PriceInv (delete_product cfg who pc ic s).2 := by
  simp only [delete_product]
  split; · exact hinv
  split; · exact hinv
  split; · exact hinv
  split; · exact hinv
  exact priceInvMap_fupd_none hinv

/-- `purchase_product` preserves I5 on any outcome. -/
theorem purchase_product_priceInv {cfg : Config} {who : Nat}
    {pc ic : List Nat} {q : Nat} {s : State} (hinv : PriceInv s) :
    PriceInv (purchase_product cfg who pc ic q s).2 := by
  simp only [purchase_product]
  split; · exact hinv
  split; · exact hinv
  split; · exact hinv
  rename_i p hp
  split; · exact hinv
  split; · exact hinv
  exact priceInvMap_fupd_some hinv (hinv (pc, ic) p hp)

/-- Every dispatch preserves I5. -/
theorem step_priceInv {cfg : Config} {c : Cmd} {s s' : State} {e : Option Err}
    (hinv : PriceInv s) (hs : step cfg c s = (e, s')) : PriceInv s' := by
  have h2 := congrArg Prod.snd hs
  simp only at h2
  cases c with
  | create who pc ic pn cat br groups op cp desc mi dimgs stock w profit now =>
    exact create_product_priceInv hinv hs
  | updateInfo who pc ic pn cat br op cp desc mi w profit =>
    rw [← h2]
    exact update_product_info_priceInv hinv
  | updateStatus who pc ic st =>
    rw [← h2]
    exact update_product_status_priceInv hinv
  | updateStock who pc ic n =>
    rw [← h2]
    exact update_stock_priceInv hinv
  | delete who pc ic =>
    rw [← h2]
    exact delete_product_priceInv hinv
  | purchase who pc ic q =>
    rw [← h2]
    show PriceInv (purchase_product cfg who pc ic q s).2
    exact purchase_product_priceInv hinv

/-- I5 holds in every reachable product state, including the post-states of
failed dispatches. -/
theorem reachable_priceInv {cfg : Config} {s : State} (h : Reachable cfg s) :
    PriceInv s := by
  induction h with
  | empty =>
    intro k p hk
    simp [emptyState] at hk
  | step hr hs ih => exact step_priceInv ih hs

/-- Stage 7 of the product update applies exactly the optional weight and
profit fields. -/
theorem productUpd7_eq (p : ProductInfo) (w pr : Option Nat) :
    productUpd7 p w pr
      = { p with weight := w.getD p.weight, profit_perbill := pr.getD p.profit_perbill } := by
  cases w <;> cases pr <;> rfl

/-- Stage 6 of the product update applies exactly the remaining optional
fields. -/
theorem productUpd6_ok_eq {cfg : Config} {p p2 : ProductInfo}
    {mi : Option (List Nat)} {w pr : Option Nat}
    (h : productUpd6 cfg p mi w pr = .ok p2) :
    p2 = { p with
      main_image := mi.getD p.main_image,
      weight := w.getD p.weight,
      profit_perbill := pr.getD p.profit_perbill } := by
  cases mi with
  | none =>
    simp only [productUpd6, Except.ok.injEq] at h
    subst h
    exact productUpd7_eq p w pr
  | some img =>
    simp only [productUpd6] at h
    split at h
    · cases h
    · simp only [Except.ok.injEq] at h
      subst h
      exact productUpd7_eq _ w pr

/-- Stage 5 of the product update applies exactly the remaining optional
fields. -/
theorem productUpd5_ok_eq {cfg : Config} {p p2 : ProductInfo}
    {d mi : Option (List Nat)} {w pr : Option Nat}
    (h : productUpd5 cfg p d mi w pr = .ok p2) :
    p2 = { p with
      description := d.getD p.description,
      main_image := mi.getD p.main_image,
      weight := w.getD p.weight,
      profit_perbill := pr.getD p.profit_perbill } := by
  cases d with
  | none => exact productUpd6_ok_eq h
  | some dd =>
    simp only [productUpd5] at h
    split at h
    · cases h
    · exact productUpd6_ok_eq h

/-- Stage 4 of the product update applies exactly the optional prices and the
remaining optional fields. -/
theorem productUpd4_ok_eq {cfg : Config} {p p2 : ProductInfo}
    {op cp : Option Nat} {d mi : Option (List Nat)} {w pr : Option Nat}
    (h : productUpd4 cfg p op cp d mi w pr = .ok p2) :
    p2 = { p with
      original_price := op.getD p.original_price,
      current_price := cp.getD p.current_price,
      description := d.getD p.description,
      main_image := mi.getD p.main_image,
      weight := w.getD p.weight,
      profit_perbill := pr.getD p.profit_perbill } := by
  cases op <;> cases cp <;>
    (simp only [productUpd4] at h
     split at h
     · cases h
     · exact productUpd5_ok_eq h)

/-- Stage 3 of the product update applies exactly the remaining optional
fields. -/
theorem productUpd3_ok_eq {cfg : Config} {p p2 : ProductInfo}
    {br : Option (List Nat)} {op cp : Option Nat} {d mi : Option (List Nat)}
    {w pr : Option Nat}
    (h : productUpd3 cfg p br op cp d mi w pr = .ok p2) :
    p2 = { p with
      brand := br.getD p.brand,
      original_price := op.getD p.original_price,
      current_price := cp.getD p.current_price,
      description := d.getD p.description,
      main_image := mi.getD p.main_image,
      weight := w.getD p.weight,
      profit_perbill := pr.getD p.profit_perbill } := by
  cases br with
  | none => exact productUpd4_ok_eq h
  | some b =>
    simp only [productUpd3] at h
    split at h
    · cases h
    · exact productUpd4_ok_eq h

/-- Stage 2 of the product update applies exactly the remaining optional
fields. -/
theorem productUpd2_ok_eq {cfg : Config} {p p2 : ProductInfo}
    {cat br : Option (List Nat)} {op cp : Option Nat} {d mi : Option (List Nat)}
    {w pr : Option Nat}
    (h : productUpd2 cfg p cat br op cp d mi w pr = .ok p2) :
    p2 = { p with
      category := cat.getD p.category,
      brand := br.getD p.brand,
      original_price := op.getD p.original_price,
      current_price := cp.getD p.current_price,
      description := d.getD p.description,
      main_image := mi.getD p.main_image,
      weight := w.getD p.weight,
      profit_perbill := pr.getD p.profit_perbill } := by
  cases cat with
  | none => exact productUpd3_ok_eq h
  | some c =>
    simp only [productUpd2] at h
    split at h
    · cases h
    · exact productUpd3_ok_eq h

/-- A successful product-update closure stores exactly the supplied fields. -/
theorem applyProductUpdates_ok_eq {cfg : Config} {p p2 : ProductInfo}
    {pn cat br : Option (List Nat)} {op cp : Option Nat} {d mi : Option (List Nat)}
    {w pr : Option Nat}
    (h : applyProductUpdates cfg p pn cat br op cp d mi w pr = .ok p2) :
    p2 = expectedProduct p pn cat br op cp d mi w pr := by
  cases pn with
  | none => exact productUpd2_ok_eq h
  | some nm =>
    simp only [applyProductUpdates] at h
    split at h
    · cases h
    · exact productUpd2_ok_eq h

/-- Success characterization of `update_product_info`. -/
theorem update_product_info_ok {cfg : Config} {who : Nat} {pc ic : List Nat}
    {pn cat br : Option (List Nat)} {op cp : Option Nat} {d mi : Option (List Nat)}
    {w pr : Option Nat} {s s' : State}
    (hs : update_product_info cfg who pc ic pn cat br op cp d mi w pr s = (none, s')) :
    ∃ p p2, s.products (pc, ic) = some p ∧ p.creator = who ∧
      applyProductUpdates cfg p pn cat br op cp d mi w pr = .ok p2 ∧
      s'.products = fupd s.products (pc, ic) (some p2) ∧
      s'.institutionProducts = s.institutionProducts := by
  simp only [update_product_info] at hs
  split at hs; · simp at hs
  split at hs; · simp at hs
  split at hs; · simp at hs
  rename_i p hp
  split at hs; · simp at hs
  rename_i hcre
  split at hs; · simp at hs
  rename_i p2 happ
  simp only [Prod.mk.injEq, true_and] at hs
  subst hs
  exact ⟨p, p2, hp, by simpa using hcre, happ, rfl, rfl⟩

/-- Success characterization of `delete_product`. -/
theorem delete_product_ok {cfg : Config} {who : Nat} {pc ic : List Nat}
    {s s' : State} (hs : delete_product cfg who pc ic s = (none, s')) :
    ∃ p, s.products (pc, ic) = some p ∧ p.creator = who ∧
      s'.products = fupd s.products (pc, ic) none ∧
      s'.institutionProducts = fupd s.institutionProducts ic (removeCode (s.institutionProducts ic) pc) := by
  simp only [delete_product] at hs
  split at hs; · simp at hs
  split at hs; · simp at hs
  split at hs; · simp at hs
  rename_i p hp
  split at hs; · simp at hs
  rename_i hcre
  simp only [Prod.mk.injEq, true_and] at hs
  subst hs
  exact ⟨p, hp, by simpa using hcre, rfl, rfl⟩

end Product

namespace Institution

/-- Stage 6 of the institution update applies exactly the optional contract. -/
theorem instUpd6_ok_eq {cfg : Config} {i i2 : InstitutionInfo}
    {f : Option (List Nat)}
    (h : instUpd6 cfg i f = .ok i2) :
    i2 = { i with profit_contract := f.elim i.profit_contract some } := by
  cases f with
  | none =>
    simp only [instUpd6, Except.ok.injEq] at h
    subst h
    rfl
  | some v =>
    simp only [instUpd6] at h
    split at h
    · cases h
    · simp only [Except.ok.injEq] at h
      subst h
      rfl

/-- Stage 5 of the institution update applies exactly the remaining fields. -/
theorem instUpd5_ok_eq {cfg : Config} {i i2 : InstitutionInfo}
    {e f : Option (List Nat)}
    (h : instUpd5 cfg i e f = .ok i2) :
    i2 = { i with
      business_scope := e.getD i.business_scope,
      profit_contract := f.elim i.profit_contract some } := by
  cases e with
  | none => exact instUpd6_ok_eq h
  | some v =>
    simp only [instUpd5] at h
    split at h
    · cases h
    · exact instUpd6_ok_eq h

/-- Stage 4 of the institution update applies exactly the remaining fields. -/
theorem instUpd4_ok_eq {cfg : Config} {i i2 : InstitutionInfo}
    {d e f : Option (List Nat)}
    (h : instUpd4 cfg i d e f = .ok i2) :
    i2 = { i with
      responsible_person := d.getD i.responsible_person,
      business_scope := e.getD i.business_scope,
      profit_contract := f.elim i.profit_contract some } := by
  cases d with
  | none => exact instUpd5_ok_eq h
  | some v =>
    simp only [instUpd4] at h
    split at h
    · cases h
    · exact instUpd5_ok_eq h

/-- Stage 3 of the institution update applies exactly the remaining fields. -/
theorem instUpd3_ok_eq {cfg : Config} {i i2 : InstitutionInfo}
    {c d e f : Option (List Nat)}
    (h : instUpd3 cfg i c d e f = .ok i2) :
    i2 = { i with
      license_image_url := c.getD i.license_image_url,
      responsible_person := d.getD i.responsible_person,
      business_scope := e.getD i.business_scope,
      profit_contract := f.elim i.profit_contract some } := by
  cases c with
  | none => exact instUpd4_ok_eq h
  | some v =>
    simp only [instUpd3] at h
    split at h
    · cases h
    · exact instUpd4_ok_eq h

/-- Stage 2 of the institution update applies exactly the remaining fields. -/
theorem instUpd2_ok_eq {cfg : Config} {i i2 : InstitutionInfo}
    {b c d e f : Option (List Nat)}
    (h : instUpd2 cfg i b c d e f = .ok i2) :
    i2 = { i with
      institution_full_name := b.getD i.institution_full_name,
      license_image_url := c.getD i.license_image_url,
      responsible_person := d.getD i.responsible_person,
      business_scope := e.getD i.business_scope,
      profit_contract := f.elim i.profit_contract some } := by
  cases b with
  | none => exact instUpd3_ok_eq h
  | some v =>
    simp only [instUpd2] at h
    split at h
    · cases h
    · exact instUpd3_ok_eq h

/-- A successful institution-update closure stores exactly the supplied
fields. -/
theorem applyInstitutionUpdates_ok_eq {cfg : Config} {i i2 : InstitutionInfo}
    {a b c d e f : Option (List Nat)}
    (h : applyInstitutionUpdates cfg i a b c d e f = .ok i2) :
    i2 = expectedInstitution i a b c d e f := by
  cases a with
  | none => exact instUpd2_ok_eq h
  | some v =>
    simp only [applyInstitutionUpdates] at h
    split at h
    · cases h
    · exact instUpd2_ok_eq h

/-- Success characterization of `update_institution_info`. -/
theorem update_institution_info_ok {cfg : Config} {who : Nat} {iid : List Nat}
    {a b c d e f : Option (List Nat)} {s s' : State}
    (hs : update_institution_info cfg who iid a b c d e f s = (none, s')) :
    ∃ i i2, s.institutions iid = some i ∧ i.creator = who ∧
      applyInstitutionUpdates cfg i a b c d e f = .ok i2 ∧
      s'.institutions = fupd s.institutions iid (some i2) := by
  simp only [update_institution_info] at hs
  split at hs; · simp at hs
  split at hs; · simp at hs
  rename_i i hi
  split at hs; · simp at hs
  rename_i hcre
  split at hs; · simp at hs
  rename_i i2 happ
  simp only [Prod.mk.injEq, true_and] at hs
  subst hs
  exact ⟨i, i2, hi, by simpa using hcre, happ, rfl⟩

end Institution


/-- C3: `update_order_status` accepts exactly the listed transitions.  Parts 1
and 2 characterize the two transition tables (notarization variant and plain
variant) as exactly the listed edges; parts 3 and 4 show that for any stored
order whose (from, to) pair is not in the applicable table the call fails with
`InvalidStatusTransition` and the state (hence the record's status) is
unchanged. -/
theorem claim_C3_transition_closure :
    (∀ f t, C2C.validate_status_transition f t = true ↔
      ((f = C2C.OrderStatus.Pending ∧ (t = C2C.OrderStatus.Paid ∨ t = C2C.OrderStatus.Cancelled ∨ t = C2C.OrderStatus.Notarizing)) ∨
       (f = C2C.OrderStatus.Paid ∧ (t = C2C.OrderStatus.Delivered ∨ t = C2C.OrderStatus.Cancelled ∨ t = C2C.OrderStatus.Notarizing)) ∨
       (f = C2C.OrderStatus.Delivered ∧ (t = C2C.OrderStatus.Completed ∨ t = C2C.OrderStatus.Notarizing)) ∨
       (f = C2C.OrderStatus.Notarizing ∧ (t = C2C.OrderStatus.Completed ∨ t = C2C.OrderStatus.Cancelled)))) ∧
    (∀ f t, Ord.validate_status_transition f t = true ↔
      ((f = Ord.OrderStatus.Pending ∧ (t = Ord.OrderStatus.Paid ∨ t = Ord.OrderStatus.Cancelled)) ∨
       (f = Ord.OrderStatus.Paid ∧ (t = Ord.OrderStatus.Delivered ∨ t = Ord.OrderStatus.Refunded ∨ t = Ord.OrderStatus.Cancelled)) ∨
       (f = Ord.OrderStatus.Delivered ∧ t = Ord.OrderStatus.Completed) ∨
       (f = Ord.OrderStatus.Completed ∧ t = Ord.OrderStatus.Refunded))) ∧
    (∀ (cfg : C2C.Config) (who : Nat) (oc : List Nat) (stc now : Nat)
        (s : C2C.State) (o : C2C.Order) (t : C2C.OrderStatus),
      oc.length ≤ cfg.maxOrderCodeLength →
      s.orders oc = some o → o.creator = who →
      C2C.decodeStatus stc = some t →
      C2C.validate_status_transition o.status t = false →
      C2C.update_order_status cfg who oc stc now s = (some C2C.Err.InvalidStatusTransition, s)) ∧
    (∀ (cfg : Ord.Config) (who : Nat) (oc : List Nat) (stc now : Nat)
        (s : Ord.State) (o : Ord.Order) (t : Ord.OrderStatus),
      oc.length ≤ cfg.maxOrderCodeLength →
      s.orders oc = some o → o.creator = who →
      Ord.decodeStatus stc = some t →
      Ord.validate_status_transition o.status t = false →
      Ord.update_order_status cfg who oc stc now s = (some Ord.Err.InvalidStatusTransition, s)) := by
  refine ⟨?_, ?_, ?_, ?_⟩
  · intro f t
    cases f <;> cases t <;> decide
  · intro f t
    cases f <;> cases t <;> decide
  · intro cfg who oc stc now s o t hlen ho hcre hst htr
    simp [C2C.update_order_status, Nat.not_lt.mpr hlen, ho, hcre, hst, htr]
  · intro cfg who oc stc now s o t hlen ho hcre hst htr
    simp [Ord.update_order_status, Nat.not_lt.mpr hlen, ho, hcre, hst, htr]

/-- C3 witness: a `Pending → Pending` self-transition on a concrete stored
order is rejected with `InvalidStatusTransition`, leaving the state as is. -/
theorem claim_C3_witness :
    C2C.update_order_status ⟨64, 64, 64⟩ 0 [1] 0 7 wState
      = (some C2C.Err.InvalidStatusTransition, wState) :=
  claim_C3_transition_closure.2.2.1 ⟨64, 64, 64⟩ 0 [1] 0 7 wState wOrder
    C2C.OrderStatus.Pending (by decide) rfl rfl rfl rfl

/-- C10: a stored but `Unavailable` product (token) is reported by
`purchase_product` (`trade_token`) with the same `ProductNotFound`
(`TokenNotFound`) error that an absent key produces, and the state is
unchanged; the last two parts show the absent-key case returns the identical
error, so the two situations are indistinguishable at the error level. -/
theorem claim_C10_unavailable_reported_as_not_found :
    (∀ (cfg : Product.Config) (who : Nat) (pc ic : List Nat) (q : Nat)
        (s : Product.State) (p : Product.ProductInfo),
      pc.length ≤ cfg.maxProductCodeLength → ic.length ≤ cfg.maxInstitutionCodeLength →
      s.products (pc, ic) = some p → p.status = Product.ProductStatus.Unavailable →
      Product.purchase_product cfg who pc ic q s = (some Product.Err.ProductNotFound, s)) ∧
    (∀ (cfg : Token.Config) (who : Nat) (tc ic : List Nat) (q : Nat)
        (s : Token.State) (t : Token.TokenInfo),
      tc.length ≤ cfg.maxTokenCodeLength → ic.length ≤ cfg.maxInstitutionCodeLength →
      s.tokens (tc, ic) = some t → t.status = Token.TokenStatus.Unavailable →
      Token.trade_token cfg who tc ic q s = (some Token.Err.TokenNotFound, s)) ∧
    (∀ (cfg : Product.Config) (who : Nat) (pc ic : List Nat) (q : Nat) (s : Product.State),
      pc.length ≤ cfg.maxProductCodeLength → ic.length ≤ cfg.maxInstitutionCodeLength →
      s.products (pc, ic) = none →
      Product.purchase_product cfg who pc ic q s = (some Product.Err.ProductNotFound, s)) ∧
    (∀ (cfg : Token.Config) (who : Nat) (tc ic : List Nat) (q : Nat) (s : Token.State),
      tc.length ≤ cfg.maxTokenCodeLength → ic.length ≤ cfg.maxInstitutionCodeLength →
      s.tokens (tc, ic) = none →
      Token.trade_token cfg who tc ic q s = (some Token.Err.TokenNotFound, s)) := by
  refine ⟨?_, ?_, ?_, ?_⟩
  · intro cfg who pc ic q s p hl1 hl2 hp hst
    simp [Product.purchase_product, Nat.not_lt.mpr hl1, Nat.not_lt.mpr hl2, hp, hst]
  · intro cfg who tc ic q s t hl1 hl2 ht hst
    simp [Token.trade_token, Nat.not_lt.mpr hl1, Nat.not_lt.mpr hl2, ht, hst]
  · intro cfg who pc ic q s hl1 hl2 hp
    simp [Product.purchase_product, Nat.not_lt.mpr hl1, Nat.not_lt.mpr hl2, hp]
  · intro cfg who tc ic q s hl1 hl2 ht
    simp [Token.trade_token, Nat.not_lt.mpr hl1, Nat.not_lt.mpr hl2, ht]

/-- C10 witness: purchasing the concrete unavailable product and trading the
concrete unavailable token both fail with the pallet's not-found error. -/
theorem claim_C10_witness :
    Product.purchase_product ⟨64, 64, 64, 64, 64, 64, 64, 64, 64, 64⟩ 5 [1] [2] 1 wProductState
      = (some Product.Err.ProductNotFound, wProductState) ∧
    Token.trade_token ⟨64, 64, 64, 64⟩ 5 [1] [2] 1 wTokenState
      = (some Token.Err.TokenNotFound, wTokenState) :=
  ⟨claim_C10_unavailable_reported_as_not_found.1 _ 5 [1] [2] 1 wProductState wProduct
      (by decide) (by decide) rfl rfl,
   claim_C10_unavailable_reported_as_not_found.2.1 _ 5 [1] [2] 1 wTokenState wToken
      (by decide) (by decide) rfl rfl⟩

/-- C6: uniqueness.  Parts 1 and 2: in each order module, after any committed
sequence of creates (all successful — which forces pairwise-distinct keys),
each request's key holds exactly the record built from that request
(`builtOrder` fixes every field: initial status `Pending`, creator equal to
the calling account, the decoded direction in the c2c module, the converted
contact fields, items and saturating totals in the plain module, and the
supplied codes and timestamps).  Parts 3 and 4: in both modules a create on an
already-used key fails with `OrderCodeAlreadyExists` and leaves the state
(hence the stored record) unchanged. -/
theorem claim_C6_create_uniqueness :
    (∀ (cfg : C2C.Config) (l : List C2C.CreateReq) (s0 sf : C2C.State),
      C2C.runCreates cfg l s0 = some sf →
      ∀ r ∈ l, ∃ d, C2C.decodeDirection r.dir = some d ∧
        sf.orders r.oc = some (C2C.builtOrder r.who r.oc r.mc r.ic d r.ta r.tot r.now)) ∧
    (∀ (cfg : Ord.Config) (l : List Ord.CreateReq) (s0 sf : Ord.State),
      Ord.runCreates cfg l s0 = some sf →
      ∀ r ∈ l, ∃ ph em ad oitems ta tw,
        Ord.convOpt 32 r.phone = some ph ∧ Ord.convOpt 128 r.email = some em ∧
        Ord.convOpt 512 r.address = some ad ∧
        Ord.convItems r.items 0 0 = some (oitems, ta, tw) ∧
        sf.orders r.oc = some (Ord.builtOrder r.who r.oc r.mc r.ic r.freight ph em ad oitems ta tw r.now)) ∧
    (∀ (cfg : C2C.Config) (who : Nat) (oc mc ic : List Nat) (dir ta tot now : Nat)
        (s : C2C.State) (r : C2C.Order),
      oc.length ≤ cfg.maxOrderCodeLength → s.orders oc = some r →
      C2C.create_order cfg who oc mc ic dir ta tot now s
        = (some C2C.Err.OrderCodeAlreadyExists, s)) ∧
    (∀ (cfg : Ord.Config) (who : Nat) (oc mc ic : List Nat) (freight : Nat)
        (phone email address : Option (List Nat))
        (items : List (List Nat × Nat × Nat × Nat)) (now : Nat)
        (s : Ord.State) (r : Ord.Order),
      oc.length ≤ cfg.maxOrderCodeLength → s.orders oc = some r →
      Ord.create_order cfg who oc mc ic freight phone email address items now s
        = (some Ord.Err.OrderCodeAlreadyExists, s)) := by
  refine ⟨?_, ?_, ?_, ?_⟩
  · intro cfg l s0 sf hrun r hr
    exact C2C.runCreates_lookup hrun r hr
  · intro cfg l s0 sf hrun r hr
    exact Ord.runCreates_plain_lookup hrun r hr
  · intro cfg who oc mc ic dir ta tot now s r hlen ho
    exact C2C.create_order_duplicate hlen ho
  · intro cfg who oc mc ic freight phone email address items now s r hlen ho
    exact Ord.create_order_plain_duplicate hlen ho

/-- C6 witness: running the two concrete requests of `c6Reqs` (c2c module)
and `c6ReqsP` (plain module) from empty storage commits, and in each module
the first key holds exactly its built record; a repeat create of key `[1]`
against `wState` is rejected with `OrderCodeAlreadyExists`. -/
theorem claim_C6_witness :
    (∃ d, C2C.decodeDirection 1 = some d ∧
      ((C2C.runCreates ⟨64, 64, 64⟩ c6Reqs C2C.emptyState).getD C2C.emptyState).orders [1]
        = some (C2C.builtOrder 0 [1] [2] [3] d 1 1 0)) ∧
    (∃ ph em ad oitems ta tw,
      Ord.convOpt 32 none = some ph ∧ Ord.convOpt 128 none = some em ∧
      Ord.convOpt 512 none = some ad ∧
      Ord.convItems [([9], 1, 2, 3)] 0 0 = some (oitems, ta, tw) ∧
      ((Ord.runCreates cfg9 c6ReqsP Ord.emptyState).getD Ord.emptyState).orders [1]
        = some (Ord.builtOrder 0 [1] [2] [3] 4 ph em ad oitems ta tw 0)) ∧
    C2C.create_order ⟨64, 64, 64⟩ 9 [1] [7] [8] 1 1 1 2 wState
      = (some C2C.Err.OrderCodeAlreadyExists, wState) := by
  refine ⟨?_, ?_, ?_⟩
  · exact claim_C6_create_uniqueness.1 ⟨64, 64, 64⟩ c6Reqs C2C.emptyState
      ((C2C.runCreates ⟨64, 64, 64⟩ c6Reqs C2C.emptyState).getD C2C.emptyState)
      rfl { who := 0, oc := [1], mc := [2], ic := [3], dir := 1, ta := 1, tot := 1, now := 0 }
      (List.Mem.head _)
  · exact claim_C6_create_uniqueness.2.1 cfg9 c6ReqsP Ord.emptyState
      ((Ord.runCreates cfg9 c6ReqsP Ord.emptyState).getD Ord.emptyState)
      rfl { who := 0, oc := [1], mc := [2], ic := [3], freight := 4,
            phone := none, email := none, address := none,
            items := [([9], 1, 2, 3)], now := 0 }
      (List.Mem.head _)
  · exact claim_C6_create_uniqueness.2.2.1 ⟨64, 64, 64⟩ 9 [1] [7] [8] 1 1 1 2 wState wOrder
      (by decide) rfl

/-- C9: for every successful plain-order create, the stored `total_amount` is
the saturating-u32 left fold of `price_per_unit * quantity` over the supplied
items, saturating-added to `freight`, and `total_weight` is the saturating
fold of `weight * quantity`; both totals are capped at `2^32 - 1`, so
arithmetic overflow can never produce an error or a wrap-around. -/
theorem claim_C9_saturating_totals
    (cfg : Ord.Config) (who : Nat) (oc mc ic : List Nat) (freight : Nat)
    (phone email address : Option (List Nat))
    (items : List (List Nat × Nat × Nat × Nat)) (now : Nat) (s s' : Ord.State)
    (hs : Ord.create_order cfg who oc mc ic freight phone email address items now s = (none, s')) :
    ∃ o, s'.orders oc = some o ∧
      o.total_amount = satAdd32 (items.foldl (fun a it => satAdd32 a (satMul32 it.2.2.1 it.2.1)) 0) freight ∧
      o.total_weight = items.foldl (fun a it => satAdd32 a (satMul32 it.2.2.2 it.2.1)) 0 ∧
      o.total_amount ≤ u32Max ∧ o.total_weight ≤ u32Max ∧
      o.freight = freight ∧ o.status = Ord.OrderStatus.Pending ∧ o.creator = who := by
  obtain ⟨-, hne, ph, em, ad, oitems, ta, tw, -, -, -, hconv, ho, -, -⟩ :=
    Ord.create_order_plain_ok hs
  obtain ⟨hta, htw⟩ := Ord.convItems_totals items 0 0 hconv
  refine ⟨_, by rw [ho, fupd_same], ?_, ?_, ?_, ?_, rfl, rfl, rfl⟩
  · simp only [hta]
  · simp only [htw]
  · exact satAdd32_le _ _
  · have := Ord.foldl_sat_le (fun it => satMul32 it.2.2.2 it.2.1) items 0 hne
    simp only [htw]
    exact this

/-- C9 witness: a single item with `price_per_unit = 2^32 − 1` and
`quantity = 2` silently caps `total_amount` at `2^32 − 1` while the create
succeeds; `total_weight = 6` is exact. -/
theorem claim_C9_witness :
    ∃ o, ((Ord.create_order cfg9 0 [1] [2] [3] 7 none none none
        [([9], 2, 4294967295, 3)] 0 Ord.emptyState).2).orders [1] = some o ∧
      o.total_amount = 4294967295 ∧ o.total_weight = 6 := by
  obtain ⟨o, ho, hta, htw, -⟩ :=
    claim_C9_saturating_totals cfg9 0 [1] [2] [3] 7 none none none
      [([9], 2, 4294967295, 3)] 0 Ord.emptyState _ rfl
  refine ⟨o, ho, ?_, ?_⟩
  · rw [hta]; decide
  · rw [htw]; decide

/-- C1: the spec demands that a failing command leave the store and all index
buckets unchanged (and §9 of the spec flags the source behavior as the defect
to fix), but the code commits partially.  Part 1: `create_order` against a
full `UserOrders` bucket returns `UserOrderListFull`, yet the primary record
for the fresh key `[1]` has been inserted.  Part 2: `update_order_status`
(Pending → Paid) against a full `Paid` bucket returns `StatusOrderListFull`,
yet the key has been removed from the old `Pending` bucket while the record
still holds status `Pending`. -/
theorem claim_C1_partial_commit_on_error :
    ((C2C.create_order ⟨64, 64, 64⟩ 0 [1] [2] [3] 1 1 1 0 c1StateA).1
        = some C2C.Err.UserOrderListFull ∧
      ((C2C.create_order ⟨64, 64, 64⟩ 0 [1] [2] [3] 1 1 1 0 c1StateA).2).orders [1] ≠ none) ∧
    ((C2C.update_order_status ⟨64, 64, 64⟩ 0 [1] 1 5 c1StateB).1
        = some C2C.Err.StatusOrderListFull ∧
      ((C2C.update_order_status ⟨64, 64, 64⟩ 0 [1] 1 5 c1StateB).2).ordersByStatus
          C2C.OrderStatus.Pending = [] ∧
      ((C2C.update_order_status ⟨64, 64, 64⟩ 0 [1] 1 5 c1StateB).2).orders [1]
        = some wOrder) := by
  have hfullA : ¬ (c1StateA.userOrders [2]).length < 1000 := by
    have h1 : c1StateA.userOrders [2] = List.replicate 1000 [0] := rfl
    rw [h1, List.length_replicate]
    exact Nat.lt_irrefl 1000
  have hA := C2C.create_order_userFull ⟨64, 64, 64⟩ 0 [1] [2] [3] 1 1 1 0
    c1StateA C2C.OrderDirection.UserBuy
    (by decide) rfl (by decide) (by decide) rfl (by decide) (by decide) hfullA
  have hfullB : ¬ (c1StateB.ordersByStatus C2C.OrderStatus.Paid).length < 10000 := by
    have h1 : c1StateB.ordersByStatus C2C.OrderStatus.Paid = List.replicate 10000 [9] := rfl
    rw [h1, List.length_replicate]
    exact Nat.lt_irrefl 10000
  have hB := C2C.update_order_status_statusFull ⟨64, 64, 64⟩ 0 [1] 1 5 c1StateB
    wOrder C2C.OrderStatus.Paid (by decide) rfl rfl rfl rfl hfullB
  refine ⟨⟨?_, ?_⟩, ?_, ?_, ?_⟩
  · rw [hA]
  · rw [hA]
    simp
  · rw [hB]
  · rw [hB]
    show fupd c1StateB.ordersByStatus wOrder.status
      (removeCode (c1StateB.ordersByStatus wOrder.status) [1]) C2C.OrderStatus.Pending = []
    rw [show wOrder.status = C2C.OrderStatus.Pending from rfl, fupd_same]
    decide
  · rw [hB]
    rfl

/-- C4 counterexample: account 0 creates buy-direction token `([1], [2])`,
account 7 buys it (adding the pair to account 7's `UserTokens` bucket), and
account 0 then deletes it.  The delete succeeds and removes the primary
record, yet the pair — a member of account 7's bucket before the call —
is still in account 7's bucket afterwards, so the claim as stated is false. -/
theorem claim_C4_counterexample :
    ([1], [2]) ∈ c4S2.userTokens 7 ∧
    (Token.delete_token ⟨64, 64, 64, 64⟩ 0 [1] [2] c4S2).1 = none ∧
    ((Token.delete_token ⟨64, 64, 64, 64⟩ 0 [1] [2] c4S2).2).tokens ([1], [2]) = none ∧
    ([1], [2]) ∈ ((Token.delete_token ⟨64, 64, 64, 64⟩ 0 [1] [2] c4S2).2).userTokens 7 := by
  decide

/-- C4 amended: after a successful delete the key is absent from the primary
store and from the index buckets keyed by the record's own attributes — for
orders the member, institution and status buckets; for tokens the institution
bucket and the *caller's* (creator's) `UserTokens` bucket; for products the
institution bucket.  `UserTokens` buckets of other accounts holding the pair
are not cleaned (see the counterexample). -/
theorem claim_C4_amended_delete_removal :
    (∀ (cfg : C2C.Config) (who : Nat) (oc : List Nat) (s s' : C2C.State),
      C2C.delete_order cfg who oc s = (none, s') →
      ∃ o, s.orders oc = some o ∧ s'.orders oc = none ∧
        oc ∉ s'.userOrders o.member_code ∧
        oc ∉ s'.institutionOrders o.institution_code ∧
        oc ∉ s'.ordersByStatus o.status) ∧
    (∀ (cfg : Token.Config) (who : Nat) (tc ic : List Nat) (s s' : Token.State),
      Token.delete_token cfg who tc ic s = (none, s') →
      ∃ t, s.tokens (tc, ic) = some t ∧ t.creator = who ∧
        s'.tokens (tc, ic) = none ∧
        tc ∉ s'.institutionTokens ic ∧
        (tc, ic) ∉ s'.userTokens who) ∧
    (∀ (cfg : Product.Config) (who : Nat) (pc ic : List Nat) (s s' : Product.State),
      Product.delete_product cfg who pc ic s = (none, s') →
      ∃ p, s.products (pc, ic) = some p ∧
        s'.products (pc, ic) = none ∧
        pc ∉ s'.institutionProducts ic) := by
  refine ⟨?_, ?_, ?_⟩
  · intro cfg who oc s s' hs
    obtain ⟨o, ho, -, hord, hu, hi, hb⟩ := C2C.delete_order_ok hs
    refine ⟨o, ho, ?_, ?_, ?_, ?_⟩
    · rw [hord, fupd_same]
    · rw [hu, fupd_same]
      simp
    · rw [hi, fupd_same]
      simp
    · rw [hb, fupd_same]
      simp
  · intro cfg who tc ic s s' hs
    obtain ⟨t, ht, hcre, htok, hinst, husr⟩ := Token.delete_token_ok hs
    refine ⟨t, ht, hcre, ?_, ?_, ?_⟩
    · rw [htok, fupd_same]
    · rw [hinst, fupd_same]
      simp
    · rw [husr, fupd_same]
      simp
  · intro cfg who pc ic s s' hs
    obtain ⟨p, hp, -, hprod, hinst⟩ := Product.delete_product_ok hs
    refine ⟨p, hp, ?_, ?_⟩
    · rw [hprod, fupd_same]
    · rw [hinst, fupd_same]
      simp

/-- C4 witness: deleting the concrete token `([1], [2])` from the state where
only its creator (account 0) holds it removes it from the primary store, the
institution bucket and account 0's `UserTokens` bucket. -/
theorem claim_C4_witness :
    ∃ t, c4S1.tokens ([1], [2]) = some t ∧ t.creator = 0 ∧
      ((Token.delete_token ⟨64, 64, 64, 64⟩ 0 [1] [2] c4S1).2).tokens ([1], [2]) = none ∧
      [1] ∉ ((Token.delete_token ⟨64, 64, 64, 64⟩ 0 [1] [2] c4S1).2).institutionTokens [2] ∧
      ([1], [2]) ∉ ((Token.delete_token ⟨64, 64, 64, 64⟩ 0 [1] [2] c4S1).2).userTokens 0 :=
  claim_C4_amended_delete_removal.2.1 ⟨64, 64, 64, 64⟩ 0 [1] [2] c4S1
    ((Token.delete_token ⟨64, 64, 64, 64⟩ 0 [1] [2] c4S1).2) rfl

/-- C5 counterexample: not every state-changing command checks the creator.
Account 1 purchases 2 units of the product created by account 0, and account
7 buys 3 units of the token created by account 0; both calls succeed and
mutate the record.  Further, the institution-payment-method pallet stores no
creator at all and checks nothing: after account 0 sets the payment method of
institution `[4]`, account 8 succeeds in mutating it via
`update_payment_field`, overwriting it via `set_payment_method`, and deleting
it via `remove_payment_method`.  The claim as stated — which quantifies over
every state-changing operation — is therefore false. -/
theorem claim_C5_counterexample :
    (Product.purchase_product ⟨64, 64, 64, 64, 64, 64, 64, 64, 64, 64⟩ 1 [1] [2] 2 c5S1).1 = none ∧
    (c5S1.products ([1], [2])).map Product.ProductInfo.creator = some 0 ∧
    (c5S1.products ([1], [2])).map Product.ProductInfo.stock_quantity = some 5 ∧
    (((Product.purchase_product ⟨64, 64, 64, 64, 64, 64, 64, 64, 64, 64⟩ 1 [1] [2] 2 c5S1).2).products ([1], [2])).map
        Product.ProductInfo.stock_quantity = some 3 ∧
    (Token.trade_token ⟨64, 64, 64, 64⟩ 7 [1] [2] 3 c4S1).1 = none ∧
    (c4S1.tokens ([1], [2])).map Token.TokenInfo.creator = some 0 ∧
    (c4S1.tokens ([1], [2])).map Token.TokenInfo.stock_quantity = some 10 ∧
    (c4S2.tokens ([1], [2])).map Token.TokenInfo.stock_quantity = some 13 ∧
    (Payment.set_payment_method ⟨64, 64⟩ 0 [4] (some [7]) none none none Payment.emptyState).1 = none ∧
    (pmS1.paymentMethods [4]).map Payment.PaymentMethod.wechat = some (some [7]) ∧
    (Payment.update_payment_field ⟨64, 64⟩ 8 [4] 0 (some [9]) pmS1).1 = none ∧
    (((Payment.update_payment_field ⟨64, 64⟩ 8 [4] 0 (some [9]) pmS1).2).paymentMethods [4]).map
        Payment.PaymentMethod.wechat = some (some [9]) ∧
    (Payment.set_payment_method ⟨64, 64⟩ 8 [4] (some [9]) none none none pmS1).1 = none ∧
    (((Payment.set_payment_method ⟨64, 64⟩ 8 [4] (some [9]) none none none pmS1).2).paymentMethods [4]).map
        Payment.PaymentMethod.wechat = some (some [9]) ∧
    (Payment.remove_payment_method ⟨64, 64⟩ 8 [4] pmS1).1 = none ∧
    ((Payment.remove_payment_method ⟨64, 64⟩ 8 [4] pmS1).2).paymentMethods [4] = none := by
  decide

/-- C5 amended: for every state-changing command that performs a creator
check — i.e. every mutation or deletion except `purchase_product` and
`trade_token`, which by design mutate quantity fields for any signed caller,
and except the institution-payment-method commands `set_payment_method`,
`update_payment_field` and `remove_payment_method`, whose `PaymentMethod`
record stores no creator and which perform no authorization check — a caller
who is not the record's creator gets `NotAuthorized` and the whole state is
unchanged.  The conjuncts cover every creator-checked command of the
c2c-order, plain order, c2c-token, product, institution and
institution-freight-template pallets. -/
theorem claim_C5_amended_creator_authorization :
    (∀ (cfg : C2C.Config) (who : Nat) (oc : List Nat) (stc now : Nat) (s : C2C.State) (o : C2C.Order),
      oc.length ≤ cfg.maxOrderCodeLength →
      s.orders oc = some o →
      o.creator ≠ who →
      C2C.update_order_status cfg who oc stc now s = (some C2C.Err.NotAuthorized, s)) ∧
    (∀ (cfg : C2C.Config) (who : Nat) (oc : List Nat) (now : Nat) (s : C2C.State) (o : C2C.Order),
      oc.length ≤ cfg.maxOrderCodeLength →
      s.orders oc = some o →
      o.creator ≠ who →
      C2C.cancel_order cfg who oc now s = (some C2C.Err.NotAuthorized, s)) ∧
    (∀ (cfg : C2C.Config) (who : Nat) (oc : List Nat) (now : Nat) (s : C2C.State) (o : C2C.Order),
      oc.length ≤ cfg.maxOrderCodeLength →
      s.orders oc = some o →
      o.creator ≠ who →
      C2C.complete_order cfg who oc now s = (some C2C.Err.NotAuthorized, s)) ∧
    (∀ (cfg : C2C.Config) (who : Nat) (oc : List Nat) (s : C2C.State) (o : C2C.Order),
      oc.length ≤ cfg.maxOrderCodeLength →
      s.orders oc = some o →
      o.creator ≠ who →
      C2C.delete_order cfg who oc s = (some C2C.Err.NotAuthorized, s)) ∧
    (∀ (cfg : Ord.Config) (who : Nat) (oc : List Nat) (stc now : Nat) (s : Ord.State) (o : Ord.Order),
      oc.length ≤ cfg.maxOrderCodeLength →
      s.orders oc = some o →
      o.creator ≠ who →
      Ord.update_order_status cfg who oc stc now s = (some Ord.Err.NotAuthorized, s)) ∧
    (∀ (cfg : Ord.Config) (who : Nat) (oc ec en : List Nat) (now : Nat) (s : Ord.State) (o : Ord.Order),
      oc.length ≤ cfg.maxOrderCodeLength →
      ec.length ≤ cfg.maxExpressCompanyLength →
      en.length ≤ cfg.maxExpressNumberLength →
      s.orders oc = some o →
      o.creator ≠ who →
      Ord.update_express_info cfg who oc ec en now s = (some Ord.Err.NotAuthorized, s)) ∧
    (∀ (cfg : Ord.Config) (who : Nat) (oc : List Nat) (now : Nat) (s : Ord.State) (o : Ord.Order),
      oc.length ≤ cfg.maxOrderCodeLength →
      s.orders oc = some o →
      o.creator ≠ who →
      Ord.cancel_order cfg who oc now s = (some Ord.Err.NotAuthorized, s)) ∧
    (∀ (cfg : Ord.Config) (who : Nat) (oc : List Nat) (s : Ord.State) (o : Ord.Order),
      oc.length ≤ cfg.maxOrderCodeLength →
      s.orders oc = some o →
      o.creator ≠ who →
      Ord.delete_order cfg who oc s = (some Ord.Err.NotAuthorized, s)) ∧
    (∀ (cfg : Token.Config) (who : Nat) (tc ic : List Nat) (nm cat : Option (List Nat)) (pr : Option Nat) (dirc : Option Nat) (s : Token.State) (t : Token.TokenInfo),
      tc.length ≤ cfg.maxTokenCodeLength →
      ic.length ≤ cfg.maxInstitutionCodeLength →
      s.tokens (tc, ic) = some t →
      t.creator ≠ who →
      Token.update_token_info cfg who tc ic nm cat pr dirc s = (some Token.Err.NotAuthorized, s)) ∧
    (∀ (cfg : Token.Config) (who : Nat) (tc ic : List Nat) (st : Nat) (s : Token.State) (t : Token.TokenInfo),
      tc.length ≤ cfg.maxTokenCodeLength →
      ic.length ≤ cfg.maxInstitutionCodeLength →
      s.tokens (tc, ic) = some t →
      t.creator ≠ who →
      Token.update_token_status cfg who tc ic st s = (some Token.Err.NotAuthorized, s)) ∧
    (∀ (cfg : Token.Config) (who : Nat) (tc ic : List Nat) (np : Nat) (s : Token.State) (t : Token.TokenInfo),
      np ≠ 0 →
      tc.length ≤ cfg.maxTokenCodeLength →
      ic.length ≤ cfg.maxInstitutionCodeLength →
      s.tokens (tc, ic) = some t →
      t.creator ≠ who →
      Token.update_token_price cfg who tc ic np s = (some Token.Err.NotAuthorized, s)) ∧
    (∀ (cfg : Token.Config) (who : Nat) (tc ic : List Nat) (ns : Nat) (s : Token.State) (t : Token.TokenInfo),
      tc.length ≤ cfg.maxTokenCodeLength →
      ic.length ≤ cfg.maxInstitutionCodeLength →
      s.tokens (tc, ic) = some t →
      t.creator ≠ who →
      Token.update_stock cfg who tc ic ns s = (some Token.Err.NotAuthorized, s)) ∧
    (∀ (cfg : Token.Config) (who : Nat) (tc ic : List Nat) (s : Token.State) (t : Token.TokenInfo),
      tc.length ≤ cfg.maxTokenCodeLength →
      ic.length ≤ cfg.maxInstitutionCodeLength →
      s.tokens (tc, ic) = some t →
      t.creator ≠ who →
      Token.delete_token cfg who tc ic s = (some Token.Err.NotAuthorized, s)) ∧
    (∀ (cfg : Product.Config) (who : Nat) (pc ic : List Nat) (pn cat br : Option (List Nat)) (op cp : Option Nat) (desc mi : Option (List Nat)) (w pr : Option Nat) (s : Product.State) (p : Product.ProductInfo),
      pc.length ≤ cfg.maxProductCodeLength →
      ic.length ≤ cfg.maxInstitutionCodeLength →
      s.products (pc, ic) = some p →
      p.creator ≠ who →
      Product.update_product_info cfg who pc ic pn cat br op cp desc mi w pr s = (some Product.Err.NotAuthorized, s)) ∧
    (∀ (cfg : Product.Config) (who : Nat) (pc ic : List Nat) (st : Nat) (s : Product.State) (p : Product.ProductInfo),
      pc.length ≤ cfg.maxProductCodeLength →
      ic.length ≤ cfg.maxInstitutionCodeLength →
      s.products (pc, ic) = some p →
      p.creator ≠ who →
      Product.update_product_status cfg who pc ic st s = (some Product.Err.NotAuthorized, s)) ∧
    (∀ (cfg : Product.Config) (who : Nat) (pc ic : List Nat) (ns : Nat) (s : Product.State) (p : Product.ProductInfo),
      pc.length ≤ cfg.maxProductCodeLength →
      ic.length ≤ cfg.maxInstitutionCodeLength →
      s.products (pc, ic) = some p →
      p.creator ≠ who →
      Product.update_stock cfg who pc ic ns s = (some Product.Err.NotAuthorized, s)) ∧
    (∀ (cfg : Product.Config) (who : Nat) (pc ic : List Nat) (s : Product.State) (p : Product.ProductInfo),
      pc.length ≤ cfg.maxProductCodeLength →
      ic.length ≤ cfg.maxInstitutionCodeLength →
      s.products (pc, ic) = some p →
      p.creator ≠ who →
      Product.delete_product cfg who pc ic s = (some Product.Err.NotAuthorized, s)) ∧
    (∀ (cfg : Institution.Config) (who : Nat) (iid : List Nat) (st : Nat) (s : Institution.State) (i : Institution.InstitutionInfo),
      iid.length ≤ cfg.maxInstitutionIdLength →
      s.institutions iid = some i →
      i.creator ≠ who →
      Institution.update_institution_status cfg who iid st s = (some Institution.Err.NotAuthorized, s)) ∧
    (∀ (cfg : Institution.Config) (who : Nat) (iid : List Nat) (a b c d e f : Option (List Nat)) (s : Institution.State) (i : Institution.InstitutionInfo),
      iid.length ≤ cfg.maxInstitutionIdLength →
      s.institutions iid = some i →
      i.creator ≠ who →
      Institution.update_institution_info cfg who iid a b c d e f s = (some Institution.Err.NotAuthorized, s)) ∧
    (∀ (cfg : Institution.Config) (who : Nat) (iid : List Nat) (s : Institution.State) (i : Institution.InstitutionInfo),
      iid.length ≤ cfg.maxInstitutionIdLength →
      s.institutions iid = some i →
      i.creator ≠ who →
      Institution.delete_institution cfg who iid s = (some Institution.Err.NotAuthorized, s)) ∧
    (∀ (cfg : Freight.Config) (who : Nat) (area : List Nat) (fw fwf awf : Option Nat)
        (s : Freight.State) (t : Freight.FreightTemplate),
      area.length ≤ cfg.maxCustomAreaLength →
      s.freightTemplates area = some t →
      t.creator ≠ who →
      Freight.update_freight_template cfg who area fw fwf awf s = (some Freight.Err.NotAuthorized, s)) ∧
    (∀ (cfg : Freight.Config) (who : Nat) (area : List Nat)
        (s : Freight.State) (t : Freight.FreightTemplate),
      area.length ≤ cfg.maxCustomAreaLength →
      s.freightTemplates area = some t →
      t.creator ≠ who →
      Freight.delete_freight_template cfg who area s = (some Freight.Err.NotAuthorized, s)) := by
  refine ⟨?_, ?_, ?_, ?_, ?_, ?_, ?_, ?_, ?_, ?_, ?_, ?_, ?_, ?_, ?_, ?_, ?_, ?_, ?_, ?_, ?_, ?_⟩
  · intro cfg who oc stc now s o hlen ho hcre
    simp [C2C.update_order_status, Nat.not_lt.mpr hlen, ho, hcre]
  · intro cfg who oc now s o hlen ho hcre
    simp [C2C.cancel_order, Nat.not_lt.mpr hlen, ho, hcre]
  · intro cfg who oc now s o hlen ho hcre
    simp [C2C.complete_order, Nat.not_lt.mpr hlen, ho, hcre]
  · intro cfg who oc s o hlen ho hcre
    simp [C2C.delete_order, Nat.not_lt.mpr hlen, ho, hcre]
  · intro cfg who oc stc now s o hlen ho hcre
    simp [Ord.update_order_status, Nat.not_lt.mpr hlen, ho, hcre]
  · intro cfg who oc ec en now s o hlen hec hen ho hcre
    simp [Ord.update_express_info, Nat.not_lt.mpr hlen, Nat.not_lt.mpr hec, Nat.not_lt.mpr hen, ho, hcre]
  · intro cfg who oc now s o hlen ho hcre
    simp [Ord.cancel_order, Nat.not_lt.mpr hlen, ho, hcre]
  · intro cfg who oc s o hlen ho hcre
    simp [Ord.delete_order, Nat.not_lt.mpr hlen, ho, hcre]
  · intro cfg who tc ic nm cat pr dirc s t h1 h2 ht hcre
    simp [Token.update_token_info, Nat.not_lt.mpr h1, Nat.not_lt.mpr h2, ht, hcre]
  · intro cfg who tc ic st s t h1 h2 ht hcre
    simp [Token.update_token_status, Nat.not_lt.mpr h1, Nat.not_lt.mpr h2, ht, hcre]
  · intro cfg who tc ic np s t hnp h1 h2 ht hcre
    simp [Token.update_token_price, hnp, Nat.not_lt.mpr h1, Nat.not_lt.mpr h2, ht, hcre]
  · intro cfg who tc ic ns s t h1 h2 ht hcre
    simp [Token.update_stock, Nat.not_lt.mpr h1, Nat.not_lt.mpr h2, ht, hcre]
  · intro cfg who tc ic s t h1 h2 ht hcre
    simp [Token.delete_token, Nat.not_lt.mpr h1, Nat.not_lt.mpr h2, ht, hcre]
  · intro cfg who pc ic pn cat br op cp desc mi w pr s p h1 h2 hp hcre
    simp [Product.update_product_info, Nat.not_lt.mpr h1, Nat.not_lt.mpr h2, hp, hcre]
  · intro cfg who pc ic st s p h1 h2 hp hcre
    simp [Product.update_product_status, Nat.not_lt.mpr h1, Nat.not_lt.mpr h2, hp, hcre]
  · intro cfg who pc ic ns s p h1 h2 hp hcre
    simp [Product.update_stock, Nat.not_lt.mpr h1, Nat.not_lt.mpr h2, hp, hcre]
  · intro cfg who pc ic s p h1 h2 hp hcre
    simp [Product.delete_product, Nat.not_lt.mpr h1, Nat.not_lt.mpr h2, hp, hcre]
  · intro cfg who iid st s i h1 hi hcre
    simp [Institution.update_institution_status, Nat.not_lt.mpr h1, hi, hcre]
  · intro cfg who iid a b c d e f s i h1 hi hcre
    simp [Institution.update_institution_info, Nat.not_lt.mpr h1, hi, hcre]
  · intro cfg who iid s i h1 hi hcre
    simp [Institution.delete_institution, Nat.not_lt.mpr h1, hi, hcre]
  · intro cfg who area fw fwf awf s t h1 ht hcre
    simp [Freight.update_freight_template, Nat.not_lt.mpr h1, ht, hcre]
  · intro cfg who area s t h1 ht hcre
    simp [Freight.delete_freight_template, Nat.not_lt.mpr h1, ht, hcre]

/-- C5 witness: a non-creator (account 9) attempting `update_order_status`
on the concrete stored order is rejected with `NotAuthorized`, state
unchanged. -/
theorem claim_C5_witness :
    C2C.update_order_status ⟨64, 64, 64⟩ 9 [1] 1 5 wState
      = (some C2C.Err.NotAuthorized, wState) :=
  claim_C5_amended_creator_authorization.1 ⟨64, 64, 64⟩ 9 [1] 1 5 wState wOrder
    (by decide) rfl (by decide)

/-- C7: every stored product satisfies `current_price ≤ original_price` in
every reachable state (even across failed dispatches); `create_product`
rejects `current_price > original_price` with `InvalidPrice` before storing
anything; `update_product_info` re-validates the applied prices and, when the
check fails, returns `InvalidPrice` with the state (hence every field)
unchanged. -/
theorem claim_C7_price_invariant :
    (∀ (cfg : Product.Config) (s : Product.State), Product.Reachable cfg s →
      ∀ k p, s.products k = some p → p.current_price ≤ p.original_price) ∧
    (∀ (cfg : Product.Config) (who : Nat) (pc ic pn cat br : List Nat)
        (groups : List (List Nat)) (op cp : Nat) (desc mi : List Nat)
        (dimgs : List (List Nat)) (stock w profit now : Nat) (s : Product.State),
      pc.length ≤ cfg.maxProductCodeLength → ic.length ≤ cfg.maxInstitutionCodeLength →
      s.products (pc, ic) = none → op < cp →
      Product.create_product cfg who pc ic pn cat br groups op cp desc mi dimgs stock w profit now s
        = (some Product.Err.InvalidPrice, s)) ∧
    (∀ (cfg : Product.Config) (who : Nat) (pc ic : List Nat)
        (pn cat br : Option (List Nat)) (op cp : Option Nat)
        (desc mi : Option (List Nat)) (w pr : Option Nat)
        (s : Product.State) (p : Product.ProductInfo),
      pc.length ≤ cfg.maxProductCodeLength → ic.length ≤ cfg.maxInstitutionCodeLength →
      s.products (pc, ic) = some p → p.creator = who →
      (∀ v, pn = some v → v.length ≤ cfg.maxNameLength) →
      (∀ v, cat = some v → v.length ≤ cfg.maxCategoryLength) →
      (∀ v, br = some v → v.length ≤ cfg.maxBrandLength) →
      op.getD p.original_price < cp.getD p.current_price →
      Product.update_product_info cfg who pc ic pn cat br op cp desc mi w pr s
        = (some Product.Err.InvalidPrice, s)) := by
  refine ⟨?_, ?_, ?_⟩
  · intro cfg s hr k p hk
    exact Product.reachable_priceInv hr k p hk
  · intro cfg who pc ic pn cat br groups op cp desc mi dimgs stock w profit now s
      h1 h2 hnone hbad
    simp [Product.create_product, Nat.not_lt.mpr h1, Nat.not_lt.mpr h2, hnone, hbad]
  · intro cfg who pc ic pn cat br op cp desc mi w pr s p h1 h2 hp hcre hpn hcat hbr hbad
    simp [Product.update_product_info, Nat.not_lt.mpr h1, Nat.not_lt.mpr h2, hp, hcre,
      Product.applyProductUpdates_price_error hpn hcat hbr hbad]

/-- C7 witness: empty storage satisfies the invariant; a create with
current price 9 above original price 5 is rejected with `InvalidPrice` and
stores nothing; raising only the current price of the concrete stored
product (current 5, original 9) to 10 is rejected with `InvalidPrice` and
changes nothing. -/
theorem claim_C7_witness :
    (∀ k p, Product.emptyState.products k = some p → p.current_price ≤ p.original_price) ∧
    Product.create_product ⟨64, 64, 64, 64, 64, 64, 64, 64, 64, 64⟩ 0 [1] [2] [10] [11] [12]
        [] 5 9 [] [] [] 5 1 0 0 Product.emptyState
      = (some Product.Err.InvalidPrice, Product.emptyState) ∧
    Product.update_product_info ⟨64, 64, 64, 64, 64, 64, 64, 64, 64, 64⟩ 0 [1] [2]
        none none none none (some 10) none none none none wProductState
      = (some Product.Err.InvalidPrice, wProductState) :=
  ⟨claim_C7_price_invariant.1 ⟨64, 64, 64, 64, 64, 64, 64, 64, 64, 64⟩ Product.emptyState
      Product.Reachable.empty,
   claim_C7_price_invariant.2.1 ⟨64, 64, 64, 64, 64, 64, 64, 64, 64, 64⟩ 0 [1] [2] [10] [11] [12]
      [] 5 9 [] [] [] 5 1 0 0 Product.emptyState (by decide) (by decide) rfl (by decide),
   claim_C7_price_invariant.2.2 ⟨64, 64, 64, 64, 64, 64, 64, 64, 64, 64⟩ 0 [1] [2]
      none none none none (some 10) none none none none wProductState wProduct
      (by decide) (by decide) rfl rfl (fun v h => by cases h) (fun v h => by cases h)
      (fun v h => by cases h) (by decide)⟩

/-- C2: in every c2c-order state reachable from empty storage by committed
(successful) commands, a key is a member of `OrdersByStatus[S]` iff the
stored order exists and has status `S`; hence every stored order appears in
exactly one by-status bucket (the one equal to its status, and in no other),
and no key is duplicated within a bucket. -/
theorem claim_C2_status_index_invariant {cfg : C2C.Config} {s : C2C.State}
    (h : C2C.Reachable cfg s) :
    (∀ k st, k ∈ s.ordersByStatus st ↔ ∃ o, s.orders k = some o ∧ o.status = st) ∧
    (∀ k o, s.orders k = some o → ∀ st, k ∈ s.ordersByStatus st ↔ st = o.status) ∧
    (∀ st, (s.ordersByStatus st).Nodup) := by
  have hinv := C2C.reachable_statusInv h
  refine ⟨hinv.1, ?_, hinv.2⟩
  intro k o ho st
  rw [C2C.statusInv_mem_iff hinv ho st]
  exact eq_comm

/-- C2 witness: the invariant holds at the reachable state left by the two
committed creates of `c6Reqs`, where the `Pending` bucket is `[[1], [5]]`. -/
theorem claim_C2_witness :
    (∀ k o, ((C2C.runCreates ⟨64, 64, 64⟩ c6Reqs C2C.emptyState).getD C2C.emptyState).orders k = some o →
      ∀ st, k ∈ ((C2C.runCreates ⟨64, 64, 64⟩ c6Reqs C2C.emptyState).getD C2C.emptyState).ordersByStatus st ↔ st = o.status) ∧
    (∀ st, (((C2C.runCreates ⟨64, 64, 64⟩ c6Reqs C2C.emptyState).getD C2C.emptyState).ordersByStatus st).Nodup) := by
  have hreach : C2C.Reachable ⟨64, 64, 64⟩
      ((C2C.runCreates ⟨64, 64, 64⟩ c6Reqs C2C.emptyState).getD C2C.emptyState) := by
    have h1 : C2C.Reachable ⟨64, 64, 64⟩
        ((C2C.runCreate ⟨64, 64, 64⟩ { who := 0, oc := [1], mc := [2], ic := [3], dir := 1, ta := 1, tot := 1, now := 0 } C2C.emptyState).2) :=
      C2C.Reachable.step (c := C2C.Cmd.create 0 [1] [2] [3] 1 1 1 0) C2C.Reachable.empty rfl
    exact C2C.Reachable.step (c := C2C.Cmd.create 4 [5] [2] [3] 0 2 3 1) h1 rfl
  obtain ⟨-, h2, h3⟩ := claim_C2_status_index_invariant hreach
  exact ⟨h2, h3⟩

/-- C8: the optional-field updates.  For each of `update_token_info`,
`update_product_info` and `update_institution_info`: a successful call stores
exactly the expected record — each field supplied as `Some` set to the new
(validated) value, each field supplied as `None` and every non-updatable
field unchanged — leaves every other record and every index bucket unchanged,
and the call fails with the module's not-found error when the record is
absent and with `NotAuthorized` when the caller is not the creator, in both
cases changing nothing.  A token price supplied as `Some` is accepted only if
positive; accepted product prices satisfy `current ≤ original`. -/
theorem claim_C8_partial_field_updates :
    (∀ (cfg : Token.Config) (who : Nat) (tc ic : List Nat)
        (nm cat : Option (List Nat)) (pr dirc : Option Nat) (s s' : Token.State),
      Token.update_token_info cfg who tc ic nm cat pr dirc s = (none, s') →
      ∃ t, s.tokens (tc, ic) = some t ∧ t.creator = who ∧
        s'.tokens (tc, ic) = some (Token.expectedToken t nm cat pr dirc) ∧
        (∀ k, k ≠ (tc, ic) → s'.tokens k = s.tokens k) ∧
        s'.institutionTokens = s.institutionTokens ∧
        s'.userTokens = s.userTokens ∧
        (∀ v, pr = some v → 0 < v)) ∧
    (∀ (cfg : Token.Config) (who : Nat) (tc ic : List Nat)
        (nm cat : Option (List Nat)) (pr dirc : Option Nat) (s : Token.State),
      tc.length ≤ cfg.maxTokenCodeLength → ic.length ≤ cfg.maxInstitutionCodeLength →
      s.tokens (tc, ic) = none →
      Token.update_token_info cfg who tc ic nm cat pr dirc s = (some Token.Err.TokenNotFound, s)) ∧
    (∀ (cfg : Token.Config) (who : Nat) (tc ic : List Nat)
        (nm cat : Option (List Nat)) (pr dirc : Option Nat) (s : Token.State)
        (t : Token.TokenInfo),
      tc.length ≤ cfg.maxTokenCodeLength → ic.length ≤ cfg.maxInstitutionCodeLength →
      s.tokens (tc, ic) = some t → t.creator ≠ who →
      Token.update_token_info cfg who tc ic nm cat pr dirc s = (some Token.Err.NotAuthorized, s)) ∧
    (∀ (cfg : Product.Config) (who : Nat) (pc ic : List Nat)
        (pn cat br : Option (List Nat)) (op cp : Option Nat)
        (d mi : Option (List Nat)) (w pr : Option Nat) (s s' : Product.State),
      Product.update_product_info cfg who pc ic pn cat br op cp d mi w pr s = (none, s') →
      ∃ p, s.products (pc, ic) = some p ∧ p.creator = who ∧
        s'.products (pc, ic) = some (Product.expectedProduct p pn cat br op cp d mi w pr) ∧
        (Product.expectedProduct p pn cat br op cp d mi w pr).current_price ≤
          (Product.expectedProduct p pn cat br op cp d mi w pr).original_price ∧
        (∀ k, k ≠ (pc, ic) → s'.products k = s.products k) ∧
        s'.institutionProducts = s.institutionProducts) ∧
    (∀ (cfg : Product.Config) (who : Nat) (pc ic : List Nat)
        (pn cat br : Option (List Nat)) (op cp : Option Nat)
        (d mi : Option (List Nat)) (w pr : Option Nat) (s : Product.State),
      pc.length ≤ cfg.maxProductCodeLength → ic.length ≤ cfg.maxInstitutionCodeLength →
      s.products (pc, ic) = none →
      Product.update_product_info cfg who pc ic pn cat br op cp d mi w pr s
        = (some Product.Err.ProductNotFound, s)) ∧
    (∀ (cfg : Product.Config) (who : Nat) (pc ic : List Nat)
        (pn cat br : Option (List Nat)) (op cp : Option Nat)
        (d mi : Option (List Nat)) (w pr : Option Nat) (s : Product.State)
        (p : Product.ProductInfo),
      pc.length ≤ cfg.maxProductCodeLength → ic.length ≤ cfg.maxInstitutionCodeLength →
      s.products (pc, ic) = some p → p.creator ≠ who →
      Product.update_product_info cfg who pc ic pn cat br op cp d mi w pr s
        = (some Product.Err.NotAuthorized, s)) ∧
    (∀ (cfg : Institution.Config) (who : Nat) (iid : List Nat)
        (a b c d e f : Option (List Nat)) (s s' : Institution.State),
      Institution.update_institution_info cfg who iid a b c d e f s = (none, s') →
      ∃ i, s.institutions iid = some i ∧ i.creator = who ∧
        s'.institutions iid = some (Institution.expectedInstitution i a b c d e f) ∧
        (∀ k, k ≠ iid → s'.institutions k = s.institutions k)) ∧
    (∀ (cfg : Institution.Config) (who : Nat) (iid : List Nat)
        (a b c d e f : Option (List Nat)) (s : Institution.State),
      iid.length ≤ cfg.maxInstitutionIdLength → s.institutions iid = none →
      Institution.update_institution_info cfg who iid a b c d e f s
        = (some Institution.Err.InstitutionNotFound, s)) ∧
    (∀ (cfg : Institution.Config) (who : Nat) (iid : List Nat)
        (a b c d e f : Option (List Nat)) (s : Institution.State)
        (i : Institution.InstitutionInfo),
      iid.length ≤ cfg.maxInstitutionIdLength → s.institutions iid = some i →
      i.creator ≠ who →
      Institution.update_institution_info cfg who iid a b c d e f s
        = (some Institution.Err.NotAuthorized, s)) := by
  refine ⟨?_, ?_, ?_, ?_, ?_, ?_, ?_, ?_, ?_⟩
  · intro cfg who tc ic nm cat pr dirc s s' hs
    obtain ⟨t, t2, ht, hcre, happ, htok, hrest1, hrest2⟩ := Token.update_token_info_ok hs
    obtain rfl := Token.applyTokenUpdates_ok_eq happ
    refine ⟨t, ht, hcre, ?_, ?_, hrest1, hrest2, ?_⟩
    · rw [htok, fupd_same]
    · intro k hk
      rw [htok, fupd_other _ _ _ _ hk]
    · intro v hv
      exact Nat.pos_of_ne_zero (Token.applyTokenUpdates_ok_price_pos happ v hv)
  · intro cfg who tc ic nm cat pr dirc s h1 h2 ht
    simp [Token.update_token_info, Nat.not_lt.mpr h1, Nat.not_lt.mpr h2, ht]
  · intro cfg who tc ic nm cat pr dirc s t h1 h2 ht hcre
    simp [Token.update_token_info, Nat.not_lt.mpr h1, Nat.not_lt.mpr h2, ht, hcre]
  · intro cfg who pc ic pn cat br op cp d mi w pr s s' hs
    obtain ⟨p, p2, hp, hcre, happ, hprod, hrest⟩ := Product.update_product_info_ok hs
    have hle := Product.applyProductUpdates_ok_le happ
    obtain rfl := Product.applyProductUpdates_ok_eq happ
    refine ⟨p, hp, hcre, ?_, hle, ?_, hrest⟩
    · rw [hprod, fupd_same]
    · intro k hk
      rw [hprod, fupd_other _ _ _ _ hk]
  · intro cfg who pc ic pn cat br op cp d mi w pr s h1 h2 hp
    simp [Product.update_product_info, Nat.not_lt.mpr h1, Nat.not_lt.mpr h2, hp]
  · intro cfg who pc ic pn cat br op cp d mi w pr s p h1 h2 hp hcre
    simp [Product.update_product_info, Nat.not_lt.mpr h1, Nat.not_lt.mpr h2, hp, hcre]
  · intro cfg who iid a b c d e f s s' hs
    obtain ⟨i, i2, hi, hcre, happ, hinst⟩ := Institution.update_institution_info_ok hs
    obtain rfl := Institution.applyInstitutionUpdates_ok_eq happ
    refine ⟨i, hi, hcre, ?_, ?_⟩
    · rw [hinst, fupd_same]
    · intro k hk
      rw [hinst, fupd_other _ _ _ _ hk]
  · intro cfg who iid a b c d e f s h1 hi
    simp [Institution.update_institution_info, Nat.not_lt.mpr h1, hi]
  · intro cfg who iid a b c d e f s i h1 hi hcre
    simp [Institution.update_institution_info, Nat.not_lt.mpr h1, hi, hcre]

/-- C8 witness: updating only the price of the concrete stored token to 9
changes exactly that field (the stored record equals the expected record,
whose name, category, direction and stock are the originals), and the
record's key is the only binding touched. -/
theorem claim_C8_witness :
    ∃ t, wTokenState.tokens ([1], [2]) = some t ∧ t.creator = 0 ∧
      ((Token.update_token_info ⟨64, 64, 64, 64⟩ 0 [1] [2] none none (some 9) none wTokenState).2).tokens ([1], [2])
        = some (Token.expectedToken t none none (some 9) none) ∧
      (∀ k, k ≠ ([1], [2]) →
        ((Token.update_token_info ⟨64, 64, 64, 64⟩ 0 [1] [2] none none (some 9) none wTokenState).2).tokens k
          = wTokenState.tokens k) := by
  obtain ⟨t, ht, hcre, hset, hframe, -, -, -⟩ :=
    claim_C8_partial_field_updates.1 ⟨64, 64, 64, 64⟩ 0 [1] [2] none none (some 9) none
      wTokenState
      ((Token.update_token_info ⟨64, 64, 64, 64⟩ 0 [1] [2] none none (some 9) none wTokenState).2)
      rfl
  exact ⟨t, ht, hcre, hset, hframe⟩
